import Mathlib

/-!
Shallow embedding of the library-catalog store (src/data/storage.ts,
src/models, and the four Express controllers). Request bodies are
`any`-typed in the source, so body fields are modelled by a JS value
type `JSVal`; identifiers stored in records are always produced by
`generateId` (a string) or preserved by updates, so stored `id` fields
are `String`. `generateId` draws from `Math.random`; its output is
modelled as an explicit oracle parameter `newId` of each create
operation. All mutation is explicit state passing on `Store`; an
operation returns its semantic HTTP result together with the new store,
so "no intermediate state" questions reduce to the returned store.
-/

namespace Catalog

/-- A JavaScript runtime value as it can appear in a JSON request body
(plus `undefined` for a missing key, which destructuring conflates with
a present `undefined`). Numbers are modelled as integers: the code never
computes with them, only tests truthiness and strict equality. -/
inductive JSVal where
  | undef : JSVal
  | jnull : JSVal
  | jbool : Bool → JSVal
  | jnum : Int → JSVal
  | jstr : String → JSVal
  | jarr : List JSVal → JSVal

/-- JS truthiness: `undefined`, `null`, `false`, `0`, `""` are falsy;
every array (even empty) is truthy. -/
def truthy : JSVal → Bool
  | .undef => false
  | .jnull => false
  | .jbool b => b
  | .jnum n => n != 0
  | .jstr s => s != ""
  | .jarr _ => true

/-- JS strict equality `v === s` against a known string primitive:
true exactly when `v` is that string (no coercion; a non-string never
strictly equals a string). -/
def jsEqStr : JSVal → String → Bool
  | .jstr t, s => t == s
  | _, _ => false

/-- JS `Array.isArray`. -/
def isArray : JSVal → Bool
  | .jarr _ => true
  | _ => false

/-- The elements of an array value (`[]` for non-arrays; only consulted
after an `Array.isArray` guard in the translated code). -/
def arrElems : JSVal → List JSVal
  | .jarr xs => xs
  | _ => []

mutual

/-- How `Array.prototype.join` renders one element: `null` and
`undefined` become the empty string, a nested array renders as its own
comma-join, other primitives by JS string coercion. -/
def jsJoinElem : JSVal → String
  | .undef => ""
  | .jnull => ""
  | .jbool b => if b then "true" else "false"
  | .jnum n => toString n
  | .jstr s => s
  | .jarr xs => String.intercalate "," (jsJoinList xs)

/-- The rendered elements of a list of JS values, for `join`. -/
def jsJoinList : List JSVal → List String
  | [] => []
  | v :: vs => jsJoinElem v :: jsJoinList vs

end

/-- JS `xs.join` with separator comma-space on the elements of a JS array. -/
def jsJoin (xs : List JSVal) : String :=
  String.intercalate ", " (jsJoinList xs)

-- Data models (src/models): stored records. `id` is a `String` because
-- every stored id comes from `generateId` (or seed literals) and no
-- controller ever places `id` in an update payload.

structure Author where
  id : String
  firstName : JSVal
  lastName : JSVal
  birthDate : JSVal
  deathDate : JSVal

structure Genre where
  id : String
  name : JSVal

structure Book where
  id : String
  title : JSVal
  authorIds : JSVal
  genreIds : JSVal
  isbn : JSVal
  summary : JSVal

structure BookCopy where
  id : String
  bookId : JSVal
  imprint : JSVal
  status : JSVal
  dueBackDate : JSVal

/-- The in-memory storage: the four module-level arrays of
src/data/storage.ts, gathered into one state record. -/
structure Store where
  books : List Book
  authors : List Author
  genres : List Genre
  bookCopies : List BookCopy

-- Partial payloads (`Partial<T>` in src/data/storage.ts): `none` is a
-- genuinely absent key (preserved by object spread), `some v` is a
-- present key (overwrites, even when `v` is `undefined`).

structure AuthorPatch where
  id : Option String
  firstName : Option JSVal
  lastName : Option JSVal
  birthDate : Option JSVal
  deathDate : Option JSVal

structure GenrePatch where
  id : Option String
  name : Option JSVal

structure BookPatch where
  id : Option String
  title : Option JSVal
  authorIds : Option JSVal
  genreIds : Option JSVal
  isbn : Option JSVal
  summary : Option JSVal

structure BookCopyPatch where
  id : Option String
  bookId : Option JSVal
  imprint : Option JSVal
  status : Option JSVal
  dueBackDate : Option JSVal

/-- Object spread `{ ...old, ...patch }` for authors: every own key of
the patch (present keys, `undefined` values included) overwrites. -/
def mergeAuthor (a : Author) (p : AuthorPatch) : Author :=
  { id := p.id.getD a.id
    firstName := p.firstName.getD a.firstName
    lastName := p.lastName.getD a.lastName
    birthDate := p.birthDate.getD a.birthDate
    deathDate := p.deathDate.getD a.deathDate }

/-- Object spread `{ ...old, ...patch }` for genres. -/
def mergeGenre (g : Genre) (p : GenrePatch) : Genre :=
  { id := p.id.getD g.id
    name := p.name.getD g.name }

/-- Object spread `{ ...old, ...patch }` for books. -/
def mergeBook (b : Book) (p : BookPatch) : Book :=
  { id := p.id.getD b.id
    title := p.title.getD b.title
    authorIds := p.authorIds.getD b.authorIds
    genreIds := p.genreIds.getD b.genreIds
    isbn := p.isbn.getD b.isbn
    summary := p.summary.getD b.summary }

/-- Object spread `{ ...old, ...patch }` for book copies. -/
def mergeBookCopy (c : BookCopy) (p : BookCopyPatch) : BookCopy :=
  { id := p.id.getD c.id
    bookId := p.bookId.getD c.bookId
    imprint := p.imprint.getD c.imprint
    status := p.status.getD c.status
    dueBackDate := p.dueBackDate.getD c.dueBackDate }

/-- JS `findIndex` plus in-place assignment of `g x` at the found index, the
common shape of the four `updateX` storage functions: replaces the first
element satisfying `q` by its image under `g`, returning the stored
result (`none` when `findIndex` gives `-1`, in which case the list is
untouched). -/
def updateFirst (q : α → Bool) (g : α → α) : List α → Option α × List α
  | [] => (none, [])
  | x :: xs =>
    if q x then (some (g x), g x :: xs)
    else
      let r := updateFirst q g xs
      (r.1, x :: r.2)

/-- JS `findIndex` plus `splice` of one element, the common shape of the four
`deleteX` storage functions: removes the first element satisfying `q`
(the list is unchanged when none does). -/
def removeFirst (q : α → Bool) : List α → List α
  | [] => []
  | x :: xs => if q x then xs else x :: removeFirst q xs

-- Lookups (storage.ts). Each takes the JS value actually compared with
-- `===` at the call site; controllers pass URL-parameter strings (as
-- `jstr`), Book validation passes raw array elements.

/-- Translation of `findBookById` of storage.ts. -/
def findBookById (v : JSVal) (books : List Book) : Option Book :=
  books.find? (fun book => jsEqStr v book.id)

/-- Translation of `findAuthorById` of storage.ts. -/
def findAuthorById (v : JSVal) (authors : List Author) : Option Author :=
  authors.find? (fun author => jsEqStr v author.id)

/-- Translation of `findGenreById` of storage.ts. -/
def findGenreById (v : JSVal) (genres : List Genre) : Option Genre :=
  genres.find? (fun genre => jsEqStr v genre.id)

/-- Translation of `findBookCopyById` of storage.ts. -/
def findBookCopyById (v : JSVal) (copies : List BookCopy) : Option BookCopy :=
  copies.find? (fun copy => jsEqStr v copy.id)

-- Adds (storage.ts): unconditional `push` to the end of the array.

/-- Translation of `addBook` of storage.ts. -/
def addBook (book : Book) (books : List Book) : List Book := books ++ [book]

/-- Translation of `addAuthor` of storage.ts. -/
def addAuthor (author : Author) (authors : List Author) : List Author :=
  authors ++ [author]

/-- Translation of `addGenre` of storage.ts. -/
def addGenre (genre : Genre) (genres : List Genre) : List Genre :=
  genres ++ [genre]

/-- Translation of `addBookCopy` of storage.ts. -/
def addBookCopy (bookCopy : BookCopy) (copies : List BookCopy) : List BookCopy :=
  copies ++ [bookCopy]

-- Updates (storage.ts): findIndex by id; null when absent; otherwise
-- `arr[i] = { ...arr[i], ...patch }` and the merged record is returned.

/-- Translation of `updateBook` of storage.ts. -/
def updateBook (id : String) (p : BookPatch) (books : List Book) :
    Option Book × List Book :=
  updateFirst (fun book => book.id == id) (fun book => mergeBook book p) books

/-- Translation of `updateAuthor` of storage.ts. -/
def updateAuthor (id : String) (p : AuthorPatch) (authors : List Author) :
    Option Author × List Author :=
  updateFirst (fun a => a.id == id) (fun a => mergeAuthor a p) authors

/-- Translation of `updateGenre` of storage.ts. -/
def updateGenre (id : String) (p : GenrePatch) (genres : List Genre) :
    Option Genre × List Genre :=
  updateFirst (fun g => g.id == id) (fun g => mergeGenre g p) genres

/-- Translation of `updateBookCopy` of storage.ts. -/
def updateBookCopy (id : String) (p : BookCopyPatch) (copies : List BookCopy) :
    Option BookCopy × List BookCopy :=
  updateFirst (fun c => c.id == id) (fun c => mergeBookCopy c p) copies

-- Deletes (storage.ts): findIndex by id; false when absent; otherwise
-- splice out that one element. `deleteBook` additionally reassigns
-- `bookCopies = bookCopies.filter(copy => copy.bookId !== id)` before
-- the splice.

/-- Translation of `deleteBook` of storage.ts: cascade-removes the matching copies and
the first matching book, in one call. Returns the success flag and the
new `books` and `bookCopies` arrays. -/
def deleteBook (id : String) (books : List Book) (copies : List BookCopy) :
    Bool × List Book × List BookCopy :=
  if books.any (fun book => book.id == id) then
    (true, removeFirst (fun book => book.id == id) books,
      copies.filter (fun copy => !(jsEqStr copy.bookId id)))
  else (false, books, copies)

/-- Translation of `deleteAuthor` of storage.ts. -/
def deleteAuthor (id : String) (authors : List Author) : Bool × List Author :=
  if authors.any (fun a => a.id == id) then
    (true, removeFirst (fun a => a.id == id) authors)
  else (false, authors)

/-- Translation of `deleteGenre` of storage.ts. -/
def deleteGenre (id : String) (genres : List Genre) : Bool × List Genre :=
  if genres.any (fun g => g.id == id) then
    (true, removeFirst (fun g => g.id == id) genres)
  else (false, genres)

/-- Translation of `deleteBookCopy` of storage.ts. -/
def deleteBookCopy (id : String) (copies : List BookCopy) :
    Bool × List BookCopy :=
  if copies.any (fun c => c.id == id) then
    (true, removeFirst (fun c => c.id == id) copies)
  else (false, copies)

-- Controller layer. Each controller is a pure function from the request
-- body (and URL id where present) and current store to the semantic
-- response plus the next store. `generateId` is nondeterministic
-- (`Math.random().toString(36).substr(2, 9)`), so create controllers
-- take the id it produced as an explicit `newId` argument.

/-- The semantic outcome a controller writes into the Express response:
200 with a record, 201 with a record, 204 empty, 404, or 400. -/
inductive ApiResult (α : Type) where
  | ok : α → ApiResult α
  | created : α → ApiResult α
  | noContent : ApiResult α
  | notFound : String → ApiResult α
  | badRequest : String → ApiResult α

-- Request bodies: the keys each controller destructures from
-- `req.body` (an `any`). A missing key destructures to `undefined`,
-- which `JSVal.undef` also denotes; the controllers never distinguish
-- the two.

structure AuthorBody where
  firstName : JSVal
  lastName : JSVal
  birthDate : JSVal
  deathDate : JSVal

structure GenreBody where
  name : JSVal

structure BookBody where
  title : JSVal
  authorIds : JSVal
  genreIds : JSVal
  isbn : JSVal
  summary : JSVal

structure BookCopyBody where
  bookId : JSVal
  imprint : JSVal
  status : JSVal
  dueBackDate : JSVal

-- Author controllers (src/controllers/authorsControllers.ts).

/-- Controller `getAuthorById`. -/
def getAuthorById (pid : String) (s : Store) : ApiResult Author :=
  match findAuthorById (.jstr pid) s.authors with
  | none => .notFound "Author not found"
  | some author => .ok author

/-- Controller `createAuthor`: requires truthy `firstName` and `birthDate`, then
appends a record built from the body (optional keys are written as-is,
`undefined` included). -/
def createAuthor (b : AuthorBody) (newId : String) (s : Store) :
    ApiResult Author × Store :=
  if !truthy b.firstName || !truthy b.birthDate then
    (.badRequest "firstName and birthDate are required", s)
  else
    let newAuthor : Author :=
      { id := newId, firstName := b.firstName, lastName := b.lastName
        birthDate := b.birthDate, deathDate := b.deathDate }
    (.created newAuthor, { s with authors := addAuthor newAuthor s.authors })

/-- Controller `updateAuthorById`: validates, then calls the storage update with a
patch in which every schema field is a present key (the object literal
`{ firstName, lastName, birthDate, deathDate }` always carries all four
keys, `undefined` values included). -/
def updateAuthorById (b : AuthorBody) (pid : String) (s : Store) :
    ApiResult Author × Store :=
  if !truthy b.firstName || !truthy b.birthDate then
    (.badRequest "firstName and birthDate are required", s)
  else
    let r := updateAuthor pid
      { id := none, firstName := some b.firstName, lastName := some b.lastName
        birthDate := some b.birthDate, deathDate := some b.deathDate } s.authors
    ((match r.1 with
      | none => .notFound "Author not found"
      | some author => .ok author), { s with authors := r.2 })

/-- Controller `deleteAuthorById`. -/
def deleteAuthorById (pid : String) (s : Store) : ApiResult Author × Store :=
  let r := deleteAuthor pid s.authors
  let s' := { s with authors := r.2 }
  if r.1 then (.noContent, s') else (.notFound "Author not found", s')

-- Genre controllers (src/controllers/genresControllers.ts).

/-- Controller `getGenreById`. -/
def getGenreById (pid : String) (s : Store) : ApiResult Genre :=
  match findGenreById (.jstr pid) s.genres with
  | none => .notFound "Genre not found"
  | some genre => .ok genre

/-- Controller `createGenre`: requires a truthy `name`. -/
def createGenre (b : GenreBody) (newId : String) (s : Store) :
    ApiResult Genre × Store :=
  if !truthy b.name then (.badRequest "name is required", s)
  else
    let newGenre : Genre := { id := newId, name := b.name }
    (.created newGenre, { s with genres := addGenre newGenre s.genres })

/-- Controller `updateGenreById`. -/
def updateGenreById (b : GenreBody) (pid : String) (s : Store) :
    ApiResult Genre × Store :=
  if !truthy b.name then (.badRequest "name is required", s)
  else
    let r := updateGenre pid { id := none, name := some b.name } s.genres
    ((match r.1 with
      | none => .notFound "Genre not found"
      | some genre => .ok genre), { s with genres := r.2 })

/-- Controller `deleteGenreById`. -/
def deleteGenreById (pid : String) (s : Store) : ApiResult Genre × Store :=
  let r := deleteGenre pid s.genres
  let s' := { s with genres := r.2 }
  if r.1 then (.noContent, s') else (.notFound "Genre not found", s')

-- Book controllers (src/controllers/booksControllers.ts).

/-- The ids in `authorIds` that fail the Author lookup:
`authorIds.filter(id => !findAuthorById(id))`. -/
def invalidAuthorIds (authorIds : JSVal) (authors : List Author) : List JSVal :=
  (arrElems authorIds).filter (fun v => (findAuthorById v authors).isNone)

/-- The ids in `genreIds` that fail the Genre lookup. -/
def invalidGenreIds (genreIds : JSVal) (genres : List Genre) : List JSVal :=
  (arrElems genreIds).filter (fun v => (findGenreById v genres).isNone)

/-- Controller `getBookById`. -/
def getBookById (pid : String) (s : Store) : ApiResult Book :=
  match findBookById (.jstr pid) s.books with
  | none => .notFound "Book not found"
  | some book => .ok book

/-- The shared validation prelude of `createBook` and `updateBookById`:
required fields, array shape of `authorIds` and `genreIds`, then
existence of every referenced author and genre, first failure reported.
Returns the error message, or `none` when validation passes. -/
def bookBodyError (b : BookBody) (s : Store) : Option String :=
  if !truthy b.title || !truthy b.authorIds || !truthy b.genreIds
      || !truthy b.isbn || !truthy b.summary then
    some "title, authorIds, genreIds, isbn, and summary are required"
  else if !isArray b.authorIds || (arrElems b.authorIds).length == 0 then
    some "authorIds must be a non-empty array"
  else if !isArray b.genreIds || (arrElems b.genreIds).length == 0 then
    some "genreIds must be a non-empty array"
  else if (invalidAuthorIds b.authorIds s.authors).length > 0 then
    some ("Invalid author IDs: " ++ jsJoin (invalidAuthorIds b.authorIds s.authors))
  else if (invalidGenreIds b.genreIds s.genres).length > 0 then
    some ("Invalid genre IDs: " ++ jsJoin (invalidGenreIds b.genreIds s.genres))
  else none

/-- Controller `createBook`. -/
def createBook (b : BookBody) (newId : String) (s : Store) :
    ApiResult Book × Store :=
  match bookBodyError b s with
  | some msg => (.badRequest msg, s)
  | none =>
    let newBook : Book :=
      { id := newId, title := b.title, authorIds := b.authorIds
        genreIds := b.genreIds, isbn := b.isbn, summary := b.summary }
    (.created newBook, { s with books := addBook newBook s.books })

/-- Controller `updateBookById`. -/
def updateBookById (b : BookBody) (pid : String) (s : Store) :
    ApiResult Book × Store :=
  match bookBodyError b s with
  | some msg => (.badRequest msg, s)
  | none =>
    let r := updateBook pid
      { id := none, title := some b.title, authorIds := some b.authorIds
        genreIds := some b.genreIds, isbn := some b.isbn
        summary := some b.summary } s.books
    ((match r.1 with
      | none => .notFound "Book not found"
      | some book => .ok book), { s with books := r.2 })

/-- Controller `deleteBookById`. -/
def deleteBookById (pid : String) (s : Store) : ApiResult Book × Store :=
  let r := deleteBook pid s.books s.bookCopies
  let s' := { s with books := r.2.1, bookCopies := r.2.2 }
  if r.1 then (.noContent, s') else (.notFound "Book not found", s')

-- Book-copy controllers (src/controllers/bookCopiesControllers.ts).

/-- The fixed status enumeration of the copy controllers. -/
def validStatuses : List String :=
  ["available", "unavailable", "can be checkout", "checked out"]

/-- Controller `getBookCopyById`. -/
def getBookCopyById (pid : String) (s : Store) : ApiResult BookCopy :=
  match findBookCopyById (.jstr pid) s.bookCopies with
  | none => .notFound "Book copy not found"
  | some copy => .ok copy

/-- The shared validation prelude of `createBookCopy` and
`updateBookCopyById`: required fields, Book lookup on `bookId`, then
`validStatuses.includes(status)` (strict equality against each fixed
string). -/
def copyBodyError (b : BookCopyBody) (s : Store) : Option String :=
  if !truthy b.bookId || !truthy b.imprint || !truthy b.status then
    some "bookId, imprint, and status are required"
  else if (findBookById b.bookId s.books).isNone then
    some "Invalid book ID"
  else if !(validStatuses.any (fun t => jsEqStr b.status t)) then
    some ("Invalid status. Must be one of: " ++ String.intercalate ", " validStatuses)
  else none

/-- Controller `createBookCopy`. -/
def createBookCopy (b : BookCopyBody) (newId : String) (s : Store) :
    ApiResult BookCopy × Store :=
  match copyBodyError b s with
  | some msg => (.badRequest msg, s)
  | none =>
    let newBookCopy : BookCopy :=
      { id := newId, bookId := b.bookId, imprint := b.imprint
        status := b.status, dueBackDate := b.dueBackDate }
    (.created newBookCopy,
      { s with bookCopies := addBookCopy newBookCopy s.bookCopies })

/-- Controller `updateBookCopyById`. -/
def updateBookCopyById (b : BookCopyBody) (pid : String) (s : Store) :
    ApiResult BookCopy × Store :=
  match copyBodyError b s with
  | some msg => (.badRequest msg, s)
  | none =>
    let r := updateBookCopy pid
      { id := none, bookId := some b.bookId, imprint := some b.imprint
        status := some b.status, dueBackDate := some b.dueBackDate } s.bookCopies
    ((match r.1 with
      | none => .notFound "Book copy not found"
      | some copy => .ok copy), { s with bookCopies := r.2 })

/-- Controller `deleteBookCopyById`. -/
def deleteBookCopyById (pid : String) (s : Store) : ApiResult BookCopy × Store :=
  let r := deleteBookCopy pid s.bookCopies
  let s' := { s with bookCopies := r.2 }
  if r.1 then (.noContent, s') else (.notFound "Book copy not found", s')

-- Generic lemmas about the `findIndex`-based update and delete shapes.

theorem updateFirst_of_forall_not {q : α → Bool} {g : α → α} {xs : List α}
    (h : ∀ x ∈ xs, q x = false) : updateFirst q g xs = (none, xs) := by
  induction xs with
  | nil => rfl
  | cons x xs ih =>
    have hx : q x = false := h x (List.mem_cons_self x xs)
    have hrest := ih (fun y hy => h y (List.mem_cons_of_mem x hy))
    simp [updateFirst, hx, hrest]

theorem updateFirst_of_decomp {q : α → Bool} {g : α → α} {l r : List α} {x : α}
    (hl : ∀ y ∈ l, q y = false) (hx : q x = true) :
    updateFirst q g (l ++ x :: r) = (some (g x), l ++ g x :: r) := by
  induction l with
  | nil => simp [updateFirst, hx]
  | cons y l ih =>
    have hy : q y = false := hl y (List.mem_cons_self y l)
    have hrest := ih (fun z hz => hl z (List.mem_cons_of_mem y hz))
    simp [updateFirst, hy, hrest]

theorem updateFirst_length {q : α → Bool} {g : α → α} (xs : List α) :
    (updateFirst q g xs).2.length = xs.length := by
  induction xs with
  | nil => rfl
  | cons x xs ih =>
    by_cases hx : q x = true
    · simp [updateFirst, hx]
    · simp only [Bool.not_eq_true] at hx
      simp [updateFirst, hx, ih]

theorem updateFirst_map {q : α → Bool} {g : α → α} {f : α → β}
    (hg : ∀ x, f (g x) = f x) (xs : List α) :
    (updateFirst q g xs).2.map f = xs.map f := by
  induction xs with
  | nil => rfl
  | cons x xs ih =>
    by_cases hx : q x = true
    · simp [updateFirst, hx, hg]
    · simp only [Bool.not_eq_true] at hx
      simp [updateFirst, hx, ih]

theorem removeFirst_of_forall_not {q : α → Bool} {xs : List α}
    (h : ∀ x ∈ xs, q x = false) : removeFirst q xs = xs := by
  induction xs with
  | nil => rfl
  | cons x xs ih =>
    have hx : q x = false := h x (List.mem_cons_self x xs)
    have hrest := ih (fun y hy => h y (List.mem_cons_of_mem x hy))
    simp [removeFirst, hx, hrest]

theorem removeFirst_of_decomp {q : α → Bool} {l r : List α} {x : α}
    (hl : ∀ y ∈ l, q y = false) (hx : q x = true) :
    removeFirst q (l ++ x :: r) = l ++ r := by
  induction l with
  | nil => simp [removeFirst, hx]
  | cons y l ih =>
    have hy : q y = false := hl y (List.mem_cons_self y l)
    have hrest := ih (fun z hz => hl z (List.mem_cons_of_mem y hz))
    simp [removeFirst, hy, hrest]

theorem removeFirst_sublist (q : α → Bool) (xs : List α) :
    (removeFirst q xs).Sublist xs := by
  induction xs with
  | nil => simp [removeFirst]
  | cons x xs ih =>
    by_cases hx : q x = true
    · simp [removeFirst, hx, List.sublist_cons_self x xs]
    · simp only [Bool.not_eq_true] at hx
      simpa [removeFirst, hx] using List.Sublist.cons₂ x ih

/-- Any element satisfying `q` splits the list at the first satisfying
element: a non-satisfying prefix, that element, and a suffix. -/
theorem exists_first_decomp {q : α → Bool} {xs : List α}
    (h : ∃ x ∈ xs, q x = true) :
    ∃ l x r, xs = l ++ x :: r ∧ q x = true ∧ ∀ y ∈ l, q y = false := by
  induction xs with
  | nil => simp at h
  | cons z xs ih =>
    by_cases hz : q z = true
    · exact ⟨[], z, xs, rfl, hz, by simp⟩
    · simp only [Bool.not_eq_true] at hz
      obtain ⟨x, hx, hqx⟩ := h
      rcases List.mem_cons.mp hx with rfl | hx'
      · exact absurd hqx (by simp [hz])
      · obtain ⟨l, x', r, hsplit, hqx', hl⟩ := ih ⟨x, hx', hqx⟩
        refine ⟨z :: l, x', r, by simp [hsplit], hqx', ?_⟩
        intro y hy
        rcases List.mem_cons.mp hy with rfl | hy'
        · exact hz
        · exact hl y hy'

-- Concrete stores used to instantiate theorems with hypotheses.

/-- A one-row-per-table store, shaped like the sample data: one author,
one genre, one book referencing both, one copy of that book. -/
def sampleStore : Store :=
  { books := [{ id := "book1", title := .jstr "Foundation"
                authorIds := .jarr [.jstr "auth1"]
                genreIds := .jarr [.jstr "gen1"]
                isbn := .jstr "978-0"
                summary := .jstr "s" }]
    authors := [{ id := "auth1", firstName := .jstr "Isaac"
                  lastName := .jstr "Asimov"
                  birthDate := .jstr "1920-01-02"
                  deathDate := .jstr "1992-04-06" }]
    genres := [{ id := "gen1", name := .jstr "Science Fiction" }]
    bookCopies := [{ id := "copy1", bookId := .jstr "book1"
                     imprint := .jstr "First Edition 1951"
                     status := .jstr "available"
                     dueBackDate := .undef }] }

/-- The empty store (process start before seeding). -/
def emptyStore : Store :=
  { books := [], authors := [], genres := [], bookCopies := [] }

/-- C1: when a Book with the target id exists, the Book delete removes
the (first) Book with that id, leaving the other books untouched,
removes exactly the Copies whose `bookId` strictly equals that id,
reports success (204), and leaves no Copy referencing that id; Authors
and Genres are untouched. The operation is a single pure transition on
the store, so every subsequent operation sees only the final state —
there is no observable intermediate state. -/
theorem deleteBook_cascade_atomic (pid : String) (s : Store)
    (h : ∃ b ∈ s.books, b.id = pid) :
    (deleteBookById pid s).1 = ApiResult.noContent
    ∧ (∃ l b r, s.books = l ++ b :: r ∧ b.id = pid ∧ (∀ y ∈ l, y.id ≠ pid)
        ∧ (deleteBookById pid s).2.books = l ++ r)
    ∧ (deleteBookById pid s).2.bookCopies
        = s.bookCopies.filter (fun c => !(jsEqStr c.bookId pid))
    ∧ (∀ c ∈ (deleteBookById pid s).2.bookCopies, jsEqStr c.bookId pid = false)
    ∧ (deleteBookById pid s).2.authors = s.authors
    ∧ (deleteBookById pid s).2.genres = s.genres := by
  have hq : ∃ b ∈ s.books, (fun b : Book => b.id == pid) b = true := by
    obtain ⟨b, hb, hid⟩ := h
    exact ⟨b, hb, by simp [hid]⟩
  have hany : s.books.any (fun b => b.id == pid) = true :=
    List.any_eq_true.mpr hq
  obtain ⟨l, b, r, hsplit, hqb, hl⟩ := exists_first_decomp hq
  have hrem : removeFirst (fun b : Book => b.id == pid) s.books = l ++ r := by
    rw [hsplit]; exact removeFirst_of_decomp hl hqb
  have hcopies : (deleteBookById pid s).2.bookCopies
      = s.bookCopies.filter (fun c => !(jsEqStr c.bookId pid)) := by
    simp [deleteBookById, deleteBook, hany]
  refine ⟨?_, ⟨l, b, r, hsplit, by simpa using hqb, ?_, ?_⟩, hcopies, ?_, ?_, ?_⟩
  · simp [deleteBookById, deleteBook, hany]
  · intro y hy
    have := hl y hy
    simpa using this
  · simp [deleteBookById, deleteBook, hany, hrem]
  · intro c hc
    rw [hcopies] at hc
    have := List.mem_filter.mp hc
    simpa using this.2
  · simp [deleteBookById, deleteBook, hany]
  · simp [deleteBookById, deleteBook, hany]

/-- Witness for C1 at the sample store. -/
theorem deleteBook_cascade_atomic_w :
    (∃ b ∈ sampleStore.books, b.id = "book1")
    ∧ ((deleteBookById "book1" sampleStore).1 = ApiResult.noContent
    ∧ (∃ l b r, sampleStore.books = l ++ b :: r ∧ b.id = "book1"
        ∧ (∀ y ∈ l, y.id ≠ "book1")
        ∧ (deleteBookById "book1" sampleStore).2.books = l ++ r)
    ∧ (deleteBookById "book1" sampleStore).2.bookCopies
        = sampleStore.bookCopies.filter (fun c => !(jsEqStr c.bookId "book1"))
    ∧ (∀ c ∈ (deleteBookById "book1" sampleStore).2.bookCopies,
        jsEqStr c.bookId "book1" = false)
    ∧ (deleteBookById "book1" sampleStore).2.authors = sampleStore.authors
    ∧ (deleteBookById "book1" sampleStore).2.genres = sampleStore.genres) :=
  ⟨⟨_, List.mem_cons_self _ _, rfl⟩,
    deleteBook_cascade_atomic "book1" sampleStore ⟨_, List.mem_cons_self _ _, rfl⟩⟩

/-- Shared analysis of one `deleteX` storage call on a duplicate-free
table containing a match: `findIndex` succeeds, the spliced table is one
shorter, and no further row matches the id (so a second identical call
fails its `findIndex`). -/
theorem delete_aux {f : α → String} {pid : String} {xs : List α}
    (hnd : (xs.map f).Nodup) (h : ∃ x ∈ xs, f x = pid) :
    (removeFirst (fun x => f x == pid) xs).length + 1 = xs.length
    ∧ ¬ ∃ x ∈ removeFirst (fun x => f x == pid) xs, f x = pid := by
  have hq : ∃ x ∈ xs, (fun x => f x == pid) x = true := by
    obtain ⟨x, hx, hid⟩ := h
    exact ⟨x, hx, by simp [hid]⟩
  obtain ⟨l, x, r, hsplit, hqx, hl⟩ := exists_first_decomp hq
  have hfx : f x = pid := by simpa using hqx
  have hrem : removeFirst (fun x => f x == pid) xs = l ++ r := by
    rw [hsplit]; exact removeFirst_of_decomp hl hqx
  have hnomatch : ∀ y ∈ l ++ r, f y ≠ pid := by
    rw [hsplit, List.map_append, List.map_cons] at hnd
    rw [← hfx]
    intro y hy
    rcases List.mem_append.mp hy with hyl | hyr
    · have hdisj := (List.nodup_append.mp hnd).2.2
      intro heq
      exact hdisj (List.mem_map_of_mem f hyl)
        (by rw [heq]; exact List.mem_cons_self _ _)
    · have hcons := (List.nodup_append.mp hnd).2.1
      have hnotmem := (List.nodup_cons.mp hcons).1
      intro heq
      exact hnotmem (heq ▸ List.mem_map_of_mem f hyr)
  refine ⟨?_, ?_⟩
  · rw [hrem, hsplit]
    simp [List.length_append]
    omega
  · rw [hrem]
    rintro ⟨y, hy, heq⟩
    exact hnomatch y hy heq

theorem length_filter_not_add {p : α → Bool} (xs : List α) :
    (xs.filter (fun x => !(p x))).length + (xs.filter p).length = xs.length := by
  induction xs with
  | nil => rfl
  | cons x xs ih =>
    by_cases hx : p x = true
    · simp [List.filter_cons, hx]
      omega
    · simp only [Bool.not_eq_true] at hx
      simp [List.filter_cons, hx]
      omega

/-- C7: on a table with duplicate-free ids, deleting an id that resolves
succeeds (204) and shrinks that table by exactly one; an immediately
repeated delete of the same id reports 404 and leaves the store
untouched. For Books, the Copies table additionally shrinks by exactly
the number of Copies whose `bookId` equalled the id. Stated for all four
entity kinds. -/
theorem delete_twice_success_then_notFound :
    ∀ (pid : String) (s : Store),
    ((s.authors.map Author.id).Nodup → (∃ a ∈ s.authors, a.id = pid) →
      (deleteAuthorById pid s).1 = ApiResult.noContent
      ∧ (deleteAuthorById pid s).2.authors.length + 1 = s.authors.length
      ∧ (deleteAuthorById pid (deleteAuthorById pid s).2).1
          = ApiResult.notFound "Author not found"
      ∧ (deleteAuthorById pid (deleteAuthorById pid s).2).2
          = (deleteAuthorById pid s).2)
    ∧ ((s.genres.map Genre.id).Nodup → (∃ g ∈ s.genres, g.id = pid) →
      (deleteGenreById pid s).1 = ApiResult.noContent
      ∧ (deleteGenreById pid s).2.genres.length + 1 = s.genres.length
      ∧ (deleteGenreById pid (deleteGenreById pid s).2).1
          = ApiResult.notFound "Genre not found"
      ∧ (deleteGenreById pid (deleteGenreById pid s).2).2
          = (deleteGenreById pid s).2)
    ∧ ((s.bookCopies.map BookCopy.id).Nodup → (∃ c ∈ s.bookCopies, c.id = pid) →
      (deleteBookCopyById pid s).1 = ApiResult.noContent
      ∧ (deleteBookCopyById pid s).2.bookCopies.length + 1 = s.bookCopies.length
      ∧ (deleteBookCopyById pid (deleteBookCopyById pid s).2).1
          = ApiResult.notFound "Book copy not found"
      ∧ (deleteBookCopyById pid (deleteBookCopyById pid s).2).2
          = (deleteBookCopyById pid s).2)
    ∧ ((s.books.map Book.id).Nodup → (∃ b ∈ s.books, b.id = pid) →
      (deleteBookById pid s).1 = ApiResult.noContent
      ∧ (deleteBookById pid s).2.books.length + 1 = s.books.length
      ∧ (deleteBookById pid s).2.bookCopies.length
          + (s.bookCopies.filter (fun c => jsEqStr c.bookId pid)).length
          = s.bookCopies.length
      ∧ (deleteBookById pid (deleteBookById pid s).2).1
          = ApiResult.notFound "Book not found"
      ∧ (deleteBookById pid (deleteBookById pid s).2).2
          = (deleteBookById pid s).2) := by
  intro pid s
  refine ⟨?_, ?_, ?_, ?_⟩
  · intro hnd h
    obtain ⟨hlen, hnone⟩ := delete_aux hnd h
    have hfirst : deleteAuthorById pid s
        = (ApiResult.noContent,
            { s with authors := removeFirst (fun a : Author => a.id == pid) s.authors }) := by
      simp [deleteAuthorById, deleteAuthor, h]
    have hsecond : deleteAuthorById pid (deleteAuthorById pid s).2
        = (ApiResult.notFound "Author not found", (deleteAuthorById pid s).2) := by
      rw [hfirst]
      simp [deleteAuthorById, deleteAuthor, hnone]
    exact ⟨by rw [hfirst], by rw [hfirst]; exact hlen,
      by rw [hsecond], by rw [hsecond]⟩
  · intro hnd h
    obtain ⟨hlen, hnone⟩ := delete_aux hnd h
    have hfirst : deleteGenreById pid s
        = (ApiResult.noContent,
            { s with genres := removeFirst (fun g : Genre => g.id == pid) s.genres }) := by
      simp [deleteGenreById, deleteGenre, h]
    have hsecond : deleteGenreById pid (deleteGenreById pid s).2
        = (ApiResult.notFound "Genre not found", (deleteGenreById pid s).2) := by
      rw [hfirst]
      simp [deleteGenreById, deleteGenre, hnone]
    exact ⟨by rw [hfirst], by rw [hfirst]; exact hlen,
      by rw [hsecond], by rw [hsecond]⟩
  · intro hnd h
    obtain ⟨hlen, hnone⟩ := delete_aux hnd h
    have hfirst : deleteBookCopyById pid s
        = (ApiResult.noContent,
            { s with bookCopies :=
                removeFirst (fun c : BookCopy => c.id == pid) s.bookCopies }) := by
      simp [deleteBookCopyById, deleteBookCopy, h]
    have hsecond : deleteBookCopyById pid (deleteBookCopyById pid s).2
        = (ApiResult.notFound "Book copy not found", (deleteBookCopyById pid s).2) := by
      rw [hfirst]
      simp [deleteBookCopyById, deleteBookCopy, hnone]
    exact ⟨by rw [hfirst], by rw [hfirst]; exact hlen,
      by rw [hsecond], by rw [hsecond]⟩
  · intro hnd h
    obtain ⟨hlen, hnone⟩ := delete_aux hnd h
    have hfirst : deleteBookById pid s
        = (ApiResult.noContent,
            { books := removeFirst (fun b : Book => b.id == pid) s.books
              authors := s.authors
              genres := s.genres
              bookCopies :=
                s.bookCopies.filter (fun c => !(jsEqStr c.bookId pid)) }) := by
      simp [deleteBookById, deleteBook, h]
    have hsecond : deleteBookById pid (deleteBookById pid s).2
        = (ApiResult.notFound "Book not found", (deleteBookById pid s).2) := by
      rw [hfirst]
      simp [deleteBookById, deleteBook, hnone]
    exact ⟨by rw [hfirst], by rw [hfirst]; exact hlen,
      by rw [hfirst]; exact length_filter_not_add s.bookCopies,
      by rw [hsecond], by rw [hsecond]⟩

/-- Witness for C7 at the sample store (authors and books). -/
theorem delete_twice_success_then_notFound_w :
    ((deleteAuthorById "auth1" sampleStore).1 = ApiResult.noContent
    ∧ (deleteAuthorById "auth1" sampleStore).2.authors.length + 1
        = sampleStore.authors.length
    ∧ (deleteAuthorById "auth1" (deleteAuthorById "auth1" sampleStore).2).1
        = ApiResult.notFound "Author not found"
    ∧ (deleteAuthorById "auth1" (deleteAuthorById "auth1" sampleStore).2).2
        = (deleteAuthorById "auth1" sampleStore).2)
    ∧ ((deleteBookById "book1" sampleStore).1 = ApiResult.noContent
    ∧ (deleteBookById "book1" sampleStore).2.books.length + 1
        = sampleStore.books.length
    ∧ (deleteBookById "book1" sampleStore).2.bookCopies.length
        + (sampleStore.bookCopies.filter (fun c => jsEqStr c.bookId "book1")).length
        = sampleStore.bookCopies.length
    ∧ (deleteBookById "book1" (deleteBookById "book1" sampleStore).2).1
        = ApiResult.notFound "Book not found"
    ∧ (deleteBookById "book1" (deleteBookById "book1" sampleStore).2).2
        = (deleteBookById "book1" sampleStore).2) :=
  ⟨(delete_twice_success_then_notFound "auth1" sampleStore).1
      (by simp [sampleStore]) ⟨_, List.mem_cons_self _ _, rfl⟩,
    (delete_twice_success_then_notFound "book1" sampleStore).2.2.2
      (by simp [sampleStore]) ⟨_, List.mem_cons_self _ _, rfl⟩⟩

/-- Case analysis of one `updateX` storage call: either no row matches
and the call returns `null` leaving the table untouched, or the table
splits at the first matching row and only that row is replaced (by its
merge with the patch), every other row surviving unchanged in place. -/
theorem updateFirst_frame (q : α → Bool) (g : α → α) (xs : List α) :
    (updateFirst q g xs = (none, xs) ∧ ∀ x ∈ xs, q x = false)
    ∨ (∃ l x r, xs = l ++ x :: r ∧ q x = true ∧ (∀ y ∈ l, q y = false)
        ∧ updateFirst q g xs = (some (g x), l ++ g x :: r)) := by
  by_cases h : ∃ x ∈ xs, q x = true
  · obtain ⟨l, x, r, hsplit, hqx, hl⟩ := exists_first_decomp h
    exact Or.inr ⟨l, x, r, hsplit, hqx, hl,
      by rw [hsplit]; exact updateFirst_of_decomp hl hqx⟩
  · push_neg at h
    have h' : ∀ x ∈ xs, q x = false := by
      intro x hx
      have := h x hx
      simpa using this
    exact Or.inl ⟨updateFirst_of_forall_not h', h'⟩

/-- C10: an update call never changes the row count of any table, never
touches a table of another entity kind, and changes no stored row other
than the first row whose id matches the targeted id. Stated for the four
storage-level update functions (arbitrary partial payloads) and, at the
controller level, for the frame on the three untouched tables and the
length of the targeted table — whatever the call's outcome. -/
theorem update_frame_only_first_match :
    (∀ (pid : String) (p : BookPatch) (xs : List Book),
      (updateBook pid p xs).2.length = xs.length
      ∧ ((updateBook pid p xs = (none, xs))
          ∨ (∃ l x r, xs = l ++ x :: r ∧ x.id = pid ∧ (∀ y ∈ l, y.id ≠ pid)
              ∧ updateBook pid p xs = (some (mergeBook x p), l ++ mergeBook x p :: r))))
    ∧ (∀ (pid : String) (p : AuthorPatch) (xs : List Author),
      (updateAuthor pid p xs).2.length = xs.length
      ∧ ((updateAuthor pid p xs = (none, xs))
          ∨ (∃ l x r, xs = l ++ x :: r ∧ x.id = pid ∧ (∀ y ∈ l, y.id ≠ pid)
              ∧ updateAuthor pid p xs = (some (mergeAuthor x p), l ++ mergeAuthor x p :: r))))
    ∧ (∀ (pid : String) (p : GenrePatch) (xs : List Genre),
      (updateGenre pid p xs).2.length = xs.length
      ∧ ((updateGenre pid p xs = (none, xs))
          ∨ (∃ l x r, xs = l ++ x :: r ∧ x.id = pid ∧ (∀ y ∈ l, y.id ≠ pid)
              ∧ updateGenre pid p xs = (some (mergeGenre x p), l ++ mergeGenre x p :: r))))
    ∧ (∀ (pid : String) (p : BookCopyPatch) (xs : List BookCopy),
      (updateBookCopy pid p xs).2.length = xs.length
      ∧ ((updateBookCopy pid p xs = (none, xs))
          ∨ (∃ l x r, xs = l ++ x :: r ∧ x.id = pid ∧ (∀ y ∈ l, y.id ≠ pid)
              ∧ updateBookCopy pid p xs
                  = (some (mergeBookCopy x p), l ++ mergeBookCopy x p :: r))))
    ∧ (∀ (b : BookBody) (pid : String) (s : Store),
      (updateBookById b pid s).2.books.length = s.books.length
      ∧ (updateBookById b pid s).2.authors = s.authors
      ∧ (updateBookById b pid s).2.genres = s.genres
      ∧ (updateBookById b pid s).2.bookCopies = s.bookCopies)
    ∧ (∀ (b : AuthorBody) (pid : String) (s : Store),
      (updateAuthorById b pid s).2.authors.length = s.authors.length
      ∧ (updateAuthorById b pid s).2.books = s.books
      ∧ (updateAuthorById b pid s).2.genres = s.genres
      ∧ (updateAuthorById b pid s).2.bookCopies = s.bookCopies)
    ∧ (∀ (b : GenreBody) (pid : String) (s : Store),
      (updateGenreById b pid s).2.genres.length = s.genres.length
      ∧ (updateGenreById b pid s).2.books = s.books
      ∧ (updateGenreById b pid s).2.authors = s.authors
      ∧ (updateGenreById b pid s).2.bookCopies = s.bookCopies)
    ∧ (∀ (b : BookCopyBody) (pid : String) (s : Store),
      (updateBookCopyById b pid s).2.bookCopies.length = s.bookCopies.length
      ∧ (updateBookCopyById b pid s).2.books = s.books
      ∧ (updateBookCopyById b pid s).2.authors = s.authors
      ∧ (updateBookCopyById b pid s).2.genres = s.genres) := by
  have hb : ∀ (pid : String) (p : BookPatch) (xs : List Book),
      (updateBook pid p xs).2.length = xs.length
      ∧ ((updateBook pid p xs = (none, xs))
          ∨ (∃ l x r, xs = l ++ x :: r ∧ x.id = pid ∧ (∀ y ∈ l, y.id ≠ pid)
              ∧ updateBook pid p xs = (some (mergeBook x p), l ++ mergeBook x p :: r))) := by
    intro pid p xs
    refine ⟨updateFirst_length xs, ?_⟩
    rcases updateFirst_frame (fun x : Book => x.id == pid) (fun x => mergeBook x p) xs
      with ⟨heq, _⟩ | ⟨l, x, r, hsplit, hqx, hl, heq⟩
    · exact Or.inl heq
    · exact Or.inr ⟨l, x, r, hsplit, by simpa using hqx,
        fun y hy => by simpa using hl y hy, heq⟩
  have ha : ∀ (pid : String) (p : AuthorPatch) (xs : List Author),
      (updateAuthor pid p xs).2.length = xs.length
      ∧ ((updateAuthor pid p xs = (none, xs))
          ∨ (∃ l x r, xs = l ++ x :: r ∧ x.id = pid ∧ (∀ y ∈ l, y.id ≠ pid)
              ∧ updateAuthor pid p xs
                  = (some (mergeAuthor x p), l ++ mergeAuthor x p :: r))) := by
    intro pid p xs
    refine ⟨updateFirst_length xs, ?_⟩
    rcases updateFirst_frame (fun x : Author => x.id == pid) (fun x => mergeAuthor x p) xs
      with ⟨heq, _⟩ | ⟨l, x, r, hsplit, hqx, hl, heq⟩
    · exact Or.inl heq
    · exact Or.inr ⟨l, x, r, hsplit, by simpa using hqx,
        fun y hy => by simpa using hl y hy, heq⟩
  have hg : ∀ (pid : String) (p : GenrePatch) (xs : List Genre),
      (updateGenre pid p xs).2.length = xs.length
      ∧ ((updateGenre pid p xs = (none, xs))
          ∨ (∃ l x r, xs = l ++ x :: r ∧ x.id = pid ∧ (∀ y ∈ l, y.id ≠ pid)
              ∧ updateGenre pid p xs
                  = (some (mergeGenre x p), l ++ mergeGenre x p :: r))) := by
    intro pid p xs
    refine ⟨updateFirst_length xs, ?_⟩
    rcases updateFirst_frame (fun x : Genre => x.id == pid) (fun x => mergeGenre x p) xs
      with ⟨heq, _⟩ | ⟨l, x, r, hsplit, hqx, hl, heq⟩
    · exact Or.inl heq
    · exact Or.inr ⟨l, x, r, hsplit, by simpa using hqx,
        fun y hy => by simpa using hl y hy, heq⟩
  have hc : ∀ (pid : String) (p : BookCopyPatch) (xs : List BookCopy),
      (updateBookCopy pid p xs).2.length = xs.length
      ∧ ((updateBookCopy pid p xs = (none, xs))
          ∨ (∃ l x r, xs = l ++ x :: r ∧ x.id = pid ∧ (∀ y ∈ l, y.id ≠ pid)
              ∧ updateBookCopy pid p xs
                  = (some (mergeBookCopy x p), l ++ mergeBookCopy x p :: r))) := by
    intro pid p xs
    refine ⟨updateFirst_length xs, ?_⟩
    rcases updateFirst_frame (fun x : BookCopy => x.id == pid)
        (fun x => mergeBookCopy x p) xs
      with ⟨heq, _⟩ | ⟨l, x, r, hsplit, hqx, hl, heq⟩
    · exact Or.inl heq
    · exact Or.inr ⟨l, x, r, hsplit, by simpa using hqx,
        fun y hy => by simpa using hl y hy, heq⟩
  refine ⟨hb, ha, hg, hc, ?_, ?_, ?_, ?_⟩
  · intro b pid s
    rcases hback : bookBodyError b s with _ | msg
    · refine ⟨?_, ?_, ?_, ?_⟩ <;> simp [updateBookById, updateBook, hback, updateFirst_length]
    · refine ⟨?_, ?_, ?_, ?_⟩ <;> simp [updateBookById, hback]
  · intro b pid s
    by_cases hv : (!truthy b.firstName || !truthy b.birthDate) = true
    · refine ⟨?_, ?_, ?_, ?_⟩ <;> simp [updateAuthorById, hv]
    · refine ⟨?_, ?_, ?_, ?_⟩ <;> simp [updateAuthorById, updateAuthor, hv, updateFirst_length]
  · intro b pid s
    by_cases hv : (!truthy b.name) = true
    · refine ⟨?_, ?_, ?_, ?_⟩ <;> simp [updateGenreById, hv]
    · refine ⟨?_, ?_, ?_, ?_⟩ <;> simp [updateGenreById, updateGenre, hv, updateFirst_length]
  · intro b pid s
    rcases hcerr : copyBodyError b s with _ | msg
    · refine ⟨?_, ?_, ?_, ?_⟩ <;> simp [updateBookCopyById, updateBookCopy, hcerr, updateFirst_length]
    · refine ⟨?_, ?_, ?_, ?_⟩ <;> simp [updateBookCopyById, hcerr]

/-- Witness for C10 at the sample store: a Genre update touches neither
the row counts nor the other three tables. -/
theorem update_frame_only_first_match_w :
    (updateGenreById { name := .jstr "Weird" } "gen1" sampleStore).2.genres.length
        = sampleStore.genres.length
    ∧ (updateGenreById { name := .jstr "Weird" } "gen1" sampleStore).2.books
        = sampleStore.books
    ∧ (updateGenreById { name := .jstr "Weird" } "gen1" sampleStore).2.authors
        = sampleStore.authors
    ∧ (updateGenreById { name := .jstr "Weird" } "gen1" sampleStore).2.bookCopies
        = sampleStore.bookCopies :=
  update_frame_only_first_match.2.2.2.2.2.2.1
    { name := .jstr "Weird" } "gen1" sampleStore

theorem no_match_of_not_exists {f : α → String} {pid : String} {xs : List α}
    (h : ¬ ∃ x ∈ xs, f x = pid) : ∀ x ∈ xs, (f x == pid) = false := by
  push_neg at h
  intro x hx
  simp [h x hx]

/-- Counterexample for C4: updating the sample author through the
controller with a body that omits `lastName` overwrites the stored
`lastName` ("Asimov") with `undefined`, because the controller passes
every schema key (destructured to `undefined` when absent) to the
spread-merge. The claim says the absent optional field keeps its
previous stored value. -/
theorem updateAuthor_drops_absent_optional_field :
    (updateAuthorById
        { firstName := .jstr "Isaac", lastName := .undef
          birthDate := .jstr "1920-01-02", deathDate := .jstr "1992-04-06" }
        "auth1" sampleStore).2.authors.map Author.lastName = [JSVal.undef]
    ∧ sampleStore.authors.map Author.lastName = [JSVal.jstr "Asimov"]
    ∧ JSVal.undef ≠ JSVal.jstr "Asimov" :=
  ⟨rfl, rfl, fun h => JSVal.noConfusion h⟩

/-- C4 (amended): at the storage layer an update replaces exactly the
fields present in the partial payload, preserves every absent field and
(when the payload carries no id key) the identifier, and returns the
resulting full record — but the controllers construct the partial with
every schema field present, so an optional field omitted from the
request body (Author `lastName`/`deathDate`, Copy `dueBackDate`) is
overwritten with `undefined` rather than preserved; the identifier is
still unchanged and the resulting full record is returned. -/
theorem update_replaces_present_fields :
    (∀ (a : Author) (p : AuthorPatch),
      (p.id = none → (mergeAuthor a p).id = a.id)
      ∧ (p.firstName = none → (mergeAuthor a p).firstName = a.firstName)
      ∧ (p.lastName = none → (mergeAuthor a p).lastName = a.lastName)
      ∧ (p.birthDate = none → (mergeAuthor a p).birthDate = a.birthDate)
      ∧ (p.deathDate = none → (mergeAuthor a p).deathDate = a.deathDate)
      ∧ (∀ v, p.firstName = some v → (mergeAuthor a p).firstName = v)
      ∧ (∀ v, p.lastName = some v → (mergeAuthor a p).lastName = v)
      ∧ (∀ v, p.birthDate = some v → (mergeAuthor a p).birthDate = v)
      ∧ (∀ v, p.deathDate = some v → (mergeAuthor a p).deathDate = v))
    ∧ (∀ (c : BookCopy) (p : BookCopyPatch),
      (p.id = none → (mergeBookCopy c p).id = c.id)
      ∧ (p.bookId = none → (mergeBookCopy c p).bookId = c.bookId)
      ∧ (p.imprint = none → (mergeBookCopy c p).imprint = c.imprint)
      ∧ (p.status = none → (mergeBookCopy c p).status = c.status)
      ∧ (p.dueBackDate = none → (mergeBookCopy c p).dueBackDate = c.dueBackDate)
      ∧ (∀ v, p.dueBackDate = some v → (mergeBookCopy c p).dueBackDate = v))
    ∧ (∀ (pid : String) (p : AuthorPatch) (xs : List Author),
      (∃ x ∈ xs, x.id = pid) →
      ∃ l x r, xs = l ++ x :: r ∧ x.id = pid ∧ (∀ y ∈ l, y.id ≠ pid)
        ∧ updateAuthor pid p xs = (some (mergeAuthor x p), l ++ mergeAuthor x p :: r))
    ∧ (∀ (pid : String) (p : BookCopyPatch) (xs : List BookCopy),
      (∃ x ∈ xs, x.id = pid) →
      ∃ l x r, xs = l ++ x :: r ∧ x.id = pid ∧ (∀ y ∈ l, y.id ≠ pid)
        ∧ updateBookCopy pid p xs
            = (some (mergeBookCopy x p), l ++ mergeBookCopy x p :: r))
    ∧ (∀ (b : AuthorBody) (pid : String) (s : Store),
      truthy b.firstName = true → truthy b.birthDate = true →
      (∃ a ∈ s.authors, a.id = pid) →
      ∃ a ∈ s.authors, a.id = pid
        ∧ (updateAuthorById b pid s).1
            = ApiResult.ok { id := a.id, firstName := b.firstName
                             lastName := b.lastName, birthDate := b.birthDate
                             deathDate := b.deathDate }) := by
  refine ⟨?_, ?_, ?_, ?_, ?_⟩
  · intro a p
    refine ⟨?_, ?_, ?_, ?_, ?_, ?_, ?_, ?_, ?_⟩ <;>
      first
        | (intro hp; simp [mergeAuthor, hp])
        | (intro v hp; simp [mergeAuthor, hp])
  · intro c p
    refine ⟨?_, ?_, ?_, ?_, ?_, ?_⟩ <;>
      first
        | (intro hp; simp [mergeBookCopy, hp])
        | (intro v hp; simp [mergeBookCopy, hp])
  · intro pid p xs h
    have hq : ∃ x ∈ xs, (fun x : Author => x.id == pid) x = true := by
      obtain ⟨x, hx, hid⟩ := h
      exact ⟨x, hx, by simp [hid]⟩
    obtain ⟨l, x, r, hsplit, hqx, hl⟩ := exists_first_decomp hq
    refine ⟨l, x, r, hsplit, by simpa using hqx,
      fun y hy => by simpa using hl y hy, ?_⟩
    rw [hsplit]
    exact updateFirst_of_decomp hl hqx
  · intro pid p xs h
    have hq : ∃ x ∈ xs, (fun x : BookCopy => x.id == pid) x = true := by
      obtain ⟨x, hx, hid⟩ := h
      exact ⟨x, hx, by simp [hid]⟩
    obtain ⟨l, x, r, hsplit, hqx, hl⟩ := exists_first_decomp hq
    refine ⟨l, x, r, hsplit, by simpa using hqx,
      fun y hy => by simpa using hl y hy, ?_⟩
    rw [hsplit]
    exact updateFirst_of_decomp hl hqx
  · intro b pid s hf hb h
    have hq : ∃ x ∈ s.authors, (fun x : Author => x.id == pid) x = true := by
      obtain ⟨x, hx, hid⟩ := h
      exact ⟨x, hx, by simp [hid]⟩
    obtain ⟨l, x, r, hsplit, hqx, hl⟩ := exists_first_decomp hq
    have hupd : updateAuthor pid
        { id := none, firstName := some b.firstName, lastName := some b.lastName
          birthDate := some b.birthDate, deathDate := some b.deathDate } s.authors
        = (some { id := x.id, firstName := b.firstName, lastName := b.lastName
                  birthDate := b.birthDate, deathDate := b.deathDate },
            l ++ { id := x.id, firstName := b.firstName, lastName := b.lastName
                   birthDate := b.birthDate, deathDate := b.deathDate
                   : Author } :: r) := by
      rw [hsplit]
      exact updateFirst_of_decomp hl hqx
    refine ⟨x, by rw [hsplit]; exact List.mem_append_right l (List.mem_cons_self x r),
      by simpa using hqx, ?_⟩
    simp [updateAuthorById, hf, hb, hupd]

/-- Witness for the amended theorem of C4 at the sample store. -/
theorem update_replaces_present_fields_w :
    truthy (JSVal.jstr "Ike") = true ∧ truthy (JSVal.jstr "1920") = true
    ∧ (∃ a ∈ sampleStore.authors, a.id = "auth1")
    ∧ (∃ a ∈ sampleStore.authors, a.id = "auth1"
        ∧ (updateAuthorById
            { firstName := .jstr "Ike", lastName := .undef
              birthDate := .jstr "1920", deathDate := .undef }
            "auth1" sampleStore).1
            = ApiResult.ok { id := a.id, firstName := .jstr "Ike"
                             lastName := .undef, birthDate := .jstr "1920"
                             deathDate := .undef }) :=
  ⟨rfl, rfl, ⟨_, List.mem_cons_self _ _, rfl⟩,
    update_replaces_present_fields.2.2.2.2
      { firstName := .jstr "Ike", lastName := .undef
        birthDate := .jstr "1920", deathDate := .undef }
      "auth1" sampleStore rfl rfl ⟨_, List.mem_cons_self _ _, rfl⟩⟩

/-- Counterexample for C5: an update request targeting a nonexistent id
does NOT always yield NotFound — the controllers validate the body
before looking the id up, so an invalid payload (here a Genre update
with falsy `name`) on a nonexistent id reports 400 ValidationFailed,
not 404. -/
theorem update_nonexistent_not_always_notFound :
    (updateGenreById { name := JSVal.undef } "g1" emptyStore).1
      = ApiResult.badRequest "name is required"
    ∧ (updateGenreById { name := JSVal.undef } "g1" emptyStore).1
      ≠ ApiResult.notFound "Genre not found"
    ∧ ¬ ∃ g ∈ emptyStore.genres, g.id = "g1" :=
  ⟨rfl, fun h => ApiResult.noConfusion h, fun ⟨_, hg, _⟩ => (List.not_mem_nil _) hg⟩

/-- C5 (amended): when the targeted id resolves to no stored record, an
update whose payload passes validation yields NotFound, an update whose
payload fails validation yields the validation error, and in every case
no table of any entity kind is changed; at the storage layer the update
always returns null and the untouched table. Stated for all four
entity kinds. -/
theorem update_nonexistent_notFound_unchanged :
    ∀ (pid : String) (s : Store),
    ((¬ ∃ x ∈ s.books, x.id = pid) →
      (∀ p : BookPatch, updateBook pid p s.books = (none, s.books))
      ∧ ∀ b : BookBody,
        (updateBookById b pid s).2 = s
        ∧ (bookBodyError b s = none →
            (updateBookById b pid s).1 = ApiResult.notFound "Book not found")
        ∧ (∀ msg, bookBodyError b s = some msg →
            (updateBookById b pid s).1 = ApiResult.badRequest msg))
    ∧ ((¬ ∃ x ∈ s.authors, x.id = pid) →
      (∀ p : AuthorPatch, updateAuthor pid p s.authors = (none, s.authors))
      ∧ ∀ b : AuthorBody,
        (updateAuthorById b pid s).2 = s
        ∧ (truthy b.firstName = true → truthy b.birthDate = true →
            (updateAuthorById b pid s).1 = ApiResult.notFound "Author not found")
        ∧ ((truthy b.firstName = false ∨ truthy b.birthDate = false) →
            (updateAuthorById b pid s).1
              = ApiResult.badRequest "firstName and birthDate are required"))
    ∧ ((¬ ∃ x ∈ s.genres, x.id = pid) →
      (∀ p : GenrePatch, updateGenre pid p s.genres = (none, s.genres))
      ∧ ∀ b : GenreBody,
        (updateGenreById b pid s).2 = s
        ∧ (truthy b.name = true →
            (updateGenreById b pid s).1 = ApiResult.notFound "Genre not found")
        ∧ (truthy b.name = false →
            (updateGenreById b pid s).1 = ApiResult.badRequest "name is required"))
    ∧ ((¬ ∃ x ∈ s.bookCopies, x.id = pid) →
      (∀ p : BookCopyPatch, updateBookCopy pid p s.bookCopies = (none, s.bookCopies))
      ∧ ∀ b : BookCopyBody,
        (updateBookCopyById b pid s).2 = s
        ∧ (copyBodyError b s = none →
            (updateBookCopyById b pid s).1 = ApiResult.notFound "Book copy not found")
        ∧ (∀ msg, copyBodyError b s = some msg →
            (updateBookCopyById b pid s).1 = ApiResult.badRequest msg)) := by
  intro pid s
  refine ⟨?_, ?_, ?_, ?_⟩
  · intro h
    have hno := no_match_of_not_exists (f := Book.id) h
    refine ⟨fun p => updateFirst_of_forall_not hno, ?_⟩
    intro b
    have hu : updateBook pid
        { id := none, title := some b.title, authorIds := some b.authorIds
          genreIds := some b.genreIds, isbn := some b.isbn
          summary := some b.summary } s.books = (none, s.books) :=
      updateFirst_of_forall_not hno
    rcases hback : bookBodyError b s with _ | msg
    · refine ⟨by simp [updateBookById, hback, hu], fun _ => ?_, fun msg hmsg => ?_⟩
      · simp [updateBookById, hback, hu]
      · exact Option.noConfusion hmsg
    · refine ⟨by simp [updateBookById, hback], fun hnone => ?_, fun msg' hmsg => ?_⟩
      · exact Option.noConfusion hnone
      · cases Option.some.inj hmsg
        simp [updateBookById, hback]
  · intro h
    have hno := no_match_of_not_exists (f := Author.id) h
    refine ⟨fun p => updateFirst_of_forall_not hno, ?_⟩
    intro b
    have hu : updateAuthor pid
        { id := none, firstName := some b.firstName, lastName := some b.lastName
          birthDate := some b.birthDate, deathDate := some b.deathDate } s.authors
        = (none, s.authors) :=
      updateFirst_of_forall_not hno
    refine ⟨?_, fun hf hb2 => ?_, fun hv => ?_⟩
    · by_cases hv : (!truthy b.firstName || !truthy b.birthDate) = true
      · simp [updateAuthorById, hv]
      · simp [updateAuthorById, hv, hu]
    · simp [updateAuthorById, hf, hb2, hu]
    · rcases hv with hv | hv <;> simp [updateAuthorById, hv]
  · intro h
    have hno := no_match_of_not_exists (f := Genre.id) h
    refine ⟨fun p => updateFirst_of_forall_not hno, ?_⟩
    intro b
    have hu : updateGenre pid { id := none, name := some b.name } s.genres
        = (none, s.genres) :=
      updateFirst_of_forall_not hno
    refine ⟨?_, fun hn => ?_, fun hn => ?_⟩
    · by_cases hv : (!truthy b.name) = true
      · simp [updateGenreById, hv]
      · simp [updateGenreById, hv, hu]
    · simp [updateGenreById, hn, hu]
    · simp [updateGenreById, hn]
  · intro h
    have hno := no_match_of_not_exists (f := BookCopy.id) h
    refine ⟨fun p => updateFirst_of_forall_not hno, ?_⟩
    intro b
    have hu : updateBookCopy pid
        { id := none, bookId := some b.bookId, imprint := some b.imprint
          status := some b.status, dueBackDate := some b.dueBackDate } s.bookCopies
        = (none, s.bookCopies) :=
      updateFirst_of_forall_not hno
    rcases hcerr : copyBodyError b s with _ | msg
    · refine ⟨by simp [updateBookCopyById, hcerr, hu], fun _ => ?_, fun msg hmsg => ?_⟩
      · simp [updateBookCopyById, hcerr, hu]
      · exact Option.noConfusion hmsg
    · refine ⟨by simp [updateBookCopyById, hcerr], fun hnone => ?_, fun msg' hmsg => ?_⟩
      · exact Option.noConfusion hnone
      · cases Option.some.inj hmsg
        simp [updateBookCopyById, hcerr]

/-- Witness for the amended theorem of C5: a valid Genre update on an empty
store yields 404 and leaves the store unchanged. -/
theorem update_nonexistent_notFound_unchanged_w :
    (¬ ∃ x ∈ emptyStore.genres, x.id = "g1")
    ∧ (updateGenreById { name := .jstr "Horror" } "g1" emptyStore).2 = emptyStore
    ∧ truthy (JSVal.jstr "Horror") = true
    ∧ (updateGenreById { name := .jstr "Horror" } "g1" emptyStore).1
        = ApiResult.notFound "Genre not found" := by
  have h : ¬ ∃ x ∈ emptyStore.genres, x.id = "g1" :=
    fun ⟨_, hg, _⟩ => (List.not_mem_nil _) hg
  have main := ((update_nonexistent_notFound_unchanged "g1" emptyStore).2.2.1 h).2
    { name := .jstr "Horror" }
  exact ⟨h, main.1, rfl, main.2.1 rfl⟩

/-- C2: Book create and update run their checks in exactly the order
required-fields → authorIds non-empty array → genreIds non-empty array →
every authorId resolves → every genreId resolves; the first failing
check alone determines the reported error, the store is untouched, and
the author/genre existence errors list every non-resolving id of that
array (the filter of the whole array), comma-joined — not only the
first. -/
theorem book_validation_order_and_messages :
    ∀ (b : BookBody) (s : Store) (newId pid : String),
    ((truthy b.title = false ∨ truthy b.authorIds = false
        ∨ truthy b.genreIds = false ∨ truthy b.isbn = false
        ∨ truthy b.summary = false) →
      createBook b newId s = (ApiResult.badRequest
            "title, authorIds, genreIds, isbn, and summary are required", s)
        ∧ updateBookById b pid s = (ApiResult.badRequest
            "title, authorIds, genreIds, isbn, and summary are required", s))
    ∧ (truthy b.title = true → truthy b.authorIds = true →
        truthy b.genreIds = true → truthy b.isbn = true →
        truthy b.summary = true →
      ((isArray b.authorIds = false ∨ arrElems b.authorIds = []) →
        createBook b newId s
            = (ApiResult.badRequest "authorIds must be a non-empty array", s)
          ∧ updateBookById b pid s
            = (ApiResult.badRequest "authorIds must be a non-empty array", s))
      ∧ (isArray b.authorIds = true → arrElems b.authorIds ≠ [] →
        ((isArray b.genreIds = false ∨ arrElems b.genreIds = []) →
          createBook b newId s
              = (ApiResult.badRequest "genreIds must be a non-empty array", s)
            ∧ updateBookById b pid s
              = (ApiResult.badRequest "genreIds must be a non-empty array", s))
        ∧ (isArray b.genreIds = true → arrElems b.genreIds ≠ [] →
          (invalidAuthorIds b.authorIds s.authors ≠ [] →
            createBook b newId s = (ApiResult.badRequest
                ("Invalid author IDs: " ++ jsJoin (invalidAuthorIds b.authorIds s.authors)), s)
              ∧ updateBookById b pid s = (ApiResult.badRequest
                ("Invalid author IDs: " ++ jsJoin (invalidAuthorIds b.authorIds s.authors)), s))
          ∧ (invalidAuthorIds b.authorIds s.authors = [] →
              invalidGenreIds b.genreIds s.genres ≠ [] →
            createBook b newId s = (ApiResult.badRequest
                ("Invalid genre IDs: " ++ jsJoin (invalidGenreIds b.genreIds s.genres)), s)
              ∧ updateBookById b pid s = (ApiResult.badRequest
                ("Invalid genre IDs: " ++ jsJoin (invalidGenreIds b.genreIds s.genres)), s))))) := by
  intro b s newId pid
  constructor
  · intro h
    have herr : bookBodyError b s
        = some "title, authorIds, genreIds, isbn, and summary are required" := by
      rcases h with h | h | h | h | h <;> simp [bookBodyError, h]
    exact ⟨by simp [createBook, herr], by simp [updateBookById, herr]⟩
  · intro h1 h2 h3 h4 h5
    constructor
    · intro h
      have herr : bookBodyError b s
          = some "authorIds must be a non-empty array" := by
        rcases h with h | h <;> simp [bookBodyError, h1, h2, h3, h4, h5, h]
      exact ⟨by simp [createBook, herr], by simp [updateBookById, herr]⟩
    · intro haA haE
      constructor
      · intro h
        have herr : bookBodyError b s
            = some "genreIds must be a non-empty array" := by
          rcases h with h | h <;>
            simp [bookBodyError, h1, h2, h3, h4, h5, haA, haE, h]
        exact ⟨by simp [createBook, herr], by simp [updateBookById, herr]⟩
      · intro hgA hgE
        constructor
        · intro h
          have herr : bookBodyError b s = some
              ("Invalid author IDs: " ++ jsJoin (invalidAuthorIds b.authorIds s.authors)) := by
            have hlen : 0 < (invalidAuthorIds b.authorIds s.authors).length :=
              List.length_pos.mpr h
            simp [bookBodyError, h1, h2, h3, h4, h5, haA, haE, hgA, hgE, hlen]
          exact ⟨by simp [createBook, herr], by simp [updateBookById, herr]⟩
        · intro hA h
          have herr : bookBodyError b s = some
              ("Invalid genre IDs: " ++ jsJoin (invalidGenreIds b.genreIds s.genres)) := by
            have hlen : 0 < (invalidGenreIds b.genreIds s.genres).length :=
              List.length_pos.mpr h
            simp [bookBodyError, h1, h2, h3, h4, h5, haA, haE, hgA, hgE, hA, hlen]
          exact ⟨by simp [createBook, herr], by simp [updateBookById, herr]⟩

/-- A Book body whose two author ids both fail to resolve against the
sample store (its only author is `auth1`). -/
def badAuthorsBody : BookBody :=
  { title := .jstr "X", authorIds := .jarr [.jstr "bad1", .jstr "bad2"]
    genreIds := .jarr [.jstr "gen1"], isbn := .jstr "1", summary := .jstr "s" }

/-- Witness for C2: both unresolved author ids are listed, comma-joined,
in the reported error. -/
theorem book_validation_order_and_messages_w :
    invalidAuthorIds badAuthorsBody.authorIds sampleStore.authors ≠ []
    ∧ createBook badAuthorsBody "nid" sampleStore
        = (ApiResult.badRequest "Invalid author IDs: bad1, bad2", sampleStore) := by
  have hne : invalidAuthorIds badAuthorsBody.authorIds sampleStore.authors ≠ [] := by
    intro hh
    have heval : invalidAuthorIds badAuthorsBody.authorIds sampleStore.authors
        = [JSVal.jstr "bad1", JSVal.jstr "bad2"] := rfl
    rw [heval] at hh
    exact List.noConfusion hh
  have happ := ((((book_validation_order_and_messages badAuthorsBody sampleStore
      "nid" "p").2 rfl rfl rfl rfl rfl).2 rfl
      (fun hh => List.noConfusion hh)).2 rfl
      (fun hh => List.noConfusion hh)).1 hne
  exact ⟨hne, happ.1.trans rfl⟩

/-- C3: Copy create and update run their checks in exactly the order
required-fields → `bookId` resolves via Book lookup → `status` belongs
to the fixed enum; the first failing check alone determines the error,
the status error enumerates the valid set, and a Copy creation whose
`bookId` does not resolve reports ValidationFailed with the whole store
(in particular the Copies table) unchanged. -/
theorem copy_validation_order_and_no_append :
    ∀ (b : BookCopyBody) (s : Store) (newId pid : String),
    ((truthy b.bookId = false ∨ truthy b.imprint = false
        ∨ truthy b.status = false) →
      createBookCopy b newId s
          = (ApiResult.badRequest "bookId, imprint, and status are required", s)
        ∧ updateBookCopyById b pid s
          = (ApiResult.badRequest "bookId, imprint, and status are required", s))
    ∧ (truthy b.bookId = true → truthy b.imprint = true →
        truthy b.status = true →
      (findBookById b.bookId s.books = none →
        createBookCopy b newId s = (ApiResult.badRequest "Invalid book ID", s)
          ∧ (createBookCopy b newId s).2.bookCopies = s.bookCopies
          ∧ updateBookCopyById b pid s = (ApiResult.badRequest "Invalid book ID", s))
      ∧ (∀ bk, findBookById b.bookId s.books = some bk →
          validStatuses.any (fun t => jsEqStr b.status t) = false →
        createBookCopy b newId s = (ApiResult.badRequest
            ("Invalid status. Must be one of: "
              ++ String.intercalate ", " validStatuses), s)
          ∧ updateBookCopyById b pid s = (ApiResult.badRequest
            ("Invalid status. Must be one of: "
              ++ String.intercalate ", " validStatuses), s))) := by
  intro b s newId pid
  constructor
  · intro h
    have herr : copyBodyError b s
        = some "bookId, imprint, and status are required" := by
      rcases h with h | h | h <;> simp [copyBodyError, h]
    exact ⟨by simp [createBookCopy, herr], by simp [updateBookCopyById, herr]⟩
  · intro h1 h2 h3
    constructor
    · intro hfind
      have herr : copyBodyError b s = some "Invalid book ID" := by
        simp [copyBodyError, h1, h2, h3, hfind]
      exact ⟨by simp [createBookCopy, herr],
        by simp [createBookCopy, herr],
        by simp [updateBookCopyById, herr]⟩
    · intro bk hfind hst
      have herr : copyBodyError b s = some
          ("Invalid status. Must be one of: "
            ++ String.intercalate ", " validStatuses) := by
        simp [copyBodyError, h1, h2, h3, hfind, hst]
      exact ⟨by simp [createBookCopy, herr], by simp [updateBookCopyById, herr]⟩

/-- Witness for C3: creating a copy of a nonexistent book on the sample
store is rejected and appends nothing. -/
theorem copy_validation_order_and_no_append_w :
    truthy (JSVal.jstr "ghost") = true ∧ truthy (JSVal.jstr "i") = true
    ∧ truthy (JSVal.jstr "available") = true
    ∧ findBookById (JSVal.jstr "ghost") sampleStore.books = none
    ∧ createBookCopy
        { bookId := .jstr "ghost", imprint := .jstr "i"
          status := .jstr "available", dueBackDate := .undef }
        "nid" sampleStore
        = (ApiResult.badRequest "Invalid book ID", sampleStore)
    ∧ (createBookCopy
        { bookId := .jstr "ghost", imprint := .jstr "i"
          status := .jstr "available", dueBackDate := .undef }
        "nid" sampleStore).2.bookCopies = sampleStore.bookCopies := by
  have happ := ((copy_validation_order_and_no_append
      { bookId := .jstr "ghost", imprint := .jstr "i"
        status := .jstr "available", dueBackDate := .undef }
      sampleStore "nid" "p").2 rfl rfl rfl).1 rfl
  exact ⟨rfl, rfl, rfl, rfl, happ.1, happ.2.1⟩

/-- C9: the required-field checks use JS truthiness (`!field`), so a
required field carrying any falsy value — the empty string, `0`,
`false`, `null` — is rejected exactly like an absent field: every create
and update of every entity kind then reports the required-fields message
with all tables unchanged, and (shown for the single-required-field
bodies) the outcome coincides with the outcome on the body with the
field removed (`undefined`). -/
theorem falsy_required_fields_rejected_as_absent :
    ∀ (s : Store) (newId pid : String),
    (∀ b : GenreBody, truthy b.name = false →
      createGenre b newId s = (ApiResult.badRequest "name is required", s)
      ∧ createGenre b newId s = createGenre { name := JSVal.undef } newId s
      ∧ updateGenreById b pid s = (ApiResult.badRequest "name is required", s)
      ∧ updateGenreById b pid s = updateGenreById { name := JSVal.undef } pid s)
    ∧ (∀ b : AuthorBody,
        (truthy b.firstName = false ∨ truthy b.birthDate = false) →
      createAuthor b newId s
          = (ApiResult.badRequest "firstName and birthDate are required", s)
      ∧ createAuthor b newId s
          = createAuthor { b with firstName := JSVal.undef } newId s
      ∧ updateAuthorById b pid s
          = (ApiResult.badRequest "firstName and birthDate are required", s))
    ∧ (∀ b : BookBody,
        (truthy b.title = false ∨ truthy b.authorIds = false
          ∨ truthy b.genreIds = false ∨ truthy b.isbn = false
          ∨ truthy b.summary = false) →
      createBook b newId s = (ApiResult.badRequest
          "title, authorIds, genreIds, isbn, and summary are required", s)
      ∧ updateBookById b pid s = (ApiResult.badRequest
          "title, authorIds, genreIds, isbn, and summary are required", s))
    ∧ (∀ b : BookCopyBody,
        (truthy b.bookId = false ∨ truthy b.imprint = false
          ∨ truthy b.status = false) →
      createBookCopy b newId s = (ApiResult.badRequest
          "bookId, imprint, and status are required", s)
      ∧ updateBookCopyById b pid s = (ApiResult.badRequest
          "bookId, imprint, and status are required", s)) := by
  intro s newId pid
  refine ⟨?_, ?_, ?_, ?_⟩
  · intro b h
    have hu : truthy JSVal.undef = false := rfl
    exact ⟨by simp [createGenre, h], by simp [createGenre, h, hu],
      by simp [updateGenreById, h], by simp [updateGenreById, h, hu]⟩
  · intro b h
    have hu : truthy JSVal.undef = false := rfl
    rcases h with h | h
    · exact ⟨by simp [createAuthor, h], by simp [createAuthor, h, hu],
        by simp [updateAuthorById, h]⟩
    · exact ⟨by simp [createAuthor, h], by simp [createAuthor, h, hu],
        by simp [updateAuthorById, h]⟩
  · intro b h
    have herr : bookBodyError b s
        = some "title, authorIds, genreIds, isbn, and summary are required" := by
      rcases h with h | h | h | h | h <;> simp [bookBodyError, h]
    exact ⟨by simp [createBook, herr], by simp [updateBookById, herr]⟩
  · intro b h
    have herr : copyBodyError b s
        = some "bookId, imprint, and status are required" := by
      rcases h with h | h | h <;> simp [copyBodyError, h]
    exact ⟨by simp [createBookCopy, herr], by simp [updateBookCopyById, herr]⟩

/-- Witness for C9: a Genre created with `name: ""`, an Author created
with `firstName: 0`, and a Copy created with `status: false` are all
rejected with the required-fields message on the untouched sample
store. -/
theorem falsy_required_fields_rejected_as_absent_w :
    truthy (JSVal.jstr "") = false
    ∧ createGenre { name := .jstr "" } "nid" sampleStore
        = (ApiResult.badRequest "name is required", sampleStore)
    ∧ truthy (JSVal.jnum 0) = false
    ∧ createAuthor
        { firstName := .jnum 0, lastName := .undef
          birthDate := .jstr "1980-01-01", deathDate := .undef } "nid" sampleStore
        = (ApiResult.badRequest "firstName and birthDate are required", sampleStore)
    ∧ truthy (JSVal.jbool false) = false
    ∧ createBookCopy
        { bookId := .jstr "book1", imprint := .jstr "i"
          status := .jbool false, dueBackDate := .undef } "nid" sampleStore
        = (ApiResult.badRequest "bookId, imprint, and status are required",
            sampleStore) :=
  ⟨rfl,
    ((falsy_required_fields_rejected_as_absent sampleStore "nid" "p").1
      { name := .jstr "" } rfl).1,
    rfl,
    ((falsy_required_fields_rejected_as_absent sampleStore "nid" "p").2.1
      { firstName := .jnum 0, lastName := .undef
        birthDate := .jstr "1980-01-01", deathDate := .undef }
      (Or.inl rfl)).1,
    rfl,
    ((falsy_required_fields_rejected_as_absent sampleStore "nid" "p").2.2.2
      { bookId := .jstr "book1", imprint := .jstr "i"
        status := .jbool false, dueBackDate := .undef }
      (Or.inr (Or.inr rfl))).1⟩

theorem find?_append_of_none {p : α → Bool} {xs : List α}
    (h : ∀ x ∈ xs, p x = false) (ys : List α) :
    List.find? p (xs ++ ys) = List.find? p ys := by
  induction xs with
  | nil => rfl
  | cons x xs ih =>
    have hx : p x = false := h x (List.mem_cons_self x xs)
    have hrest := ih (fun y hy => h y (List.mem_cons_of_mem x hy))
    simp [List.find?, hx, hrest]

/-- C6: when the Book payload passes validation and the id drawn by
`generateId` is non-empty and does not collide with any stored Book id
(the generator contract of spec 4.1, made explicit because the
randomness of the generator is an input of the model), create reports 201
with a new record that is exactly the payload plus that id, appends it
as the only change, and an immediate get-by-id with the returned id
yields that same record. -/
theorem createBook_then_getById_roundtrip (b : BookBody) (s : Store)
    (newId : String) (hval : bookBodyError b s = none)
    (hfresh : ∀ bk ∈ s.books, bk.id ≠ newId) (hne : newId ≠ "") :
    ∃ nb : Book,
      createBook b newId s
          = (ApiResult.created nb, { s with books := s.books ++ [nb] })
      ∧ nb.id = newId ∧ nb.id ≠ ""
      ∧ nb.title = b.title ∧ nb.authorIds = b.authorIds
      ∧ nb.genreIds = b.genreIds ∧ nb.isbn = b.isbn ∧ nb.summary = b.summary
      ∧ getBookById newId (createBook b newId s).2 = ApiResult.ok nb := by
  refine ⟨{ id := newId, title := b.title, authorIds := b.authorIds
            genreIds := b.genreIds, isbn := b.isbn, summary := b.summary },
    ?_, rfl, hne, rfl, rfl, rfl, rfl, rfl, ?_⟩
  · simp [createBook, hval, addBook]
  · have hstore : (createBook b newId s).2
        = { s with books := s.books
            ++ [{ id := newId, title := b.title, authorIds := b.authorIds
                  genreIds := b.genreIds, isbn := b.isbn
                  summary := b.summary }] } := by
      simp [createBook, hval, addBook]
    have hmiss : ∀ bk ∈ s.books,
        (fun bk : Book => jsEqStr (.jstr newId) bk.id) bk = false := by
      intro bk hbk
      simp [jsEqStr]
      exact fun heq => (hfresh bk hbk) heq.symm
    rw [getBookById, hstore]
    show (match findBookById (.jstr newId) (s.books ++ [_]) with
      | none => ApiResult.notFound "Book not found"
      | some book => ApiResult.ok book) = _
    rw [findBookById, find?_append_of_none hmiss]
    simp [List.find?, jsEqStr]

/-- Witness for C6 at the sample store. -/
theorem createBook_then_getById_roundtrip_w :
    bookBodyError
        { title := .jstr "I, Robot", authorIds := .jarr [.jstr "auth1"]
          genreIds := .jarr [.jstr "gen1"], isbn := .jstr "2"
          summary := .jstr "t" } sampleStore = none
    ∧ (∀ bk ∈ sampleStore.books, bk.id ≠ "book2")
    ∧ "book2" ≠ ""
    ∧ ∃ nb : Book,
      createBook
          { title := .jstr "I, Robot", authorIds := .jarr [.jstr "auth1"]
            genreIds := .jarr [.jstr "gen1"], isbn := .jstr "2"
            summary := .jstr "t" } "book2" sampleStore
          = (ApiResult.created nb,
              { sampleStore with books := sampleStore.books ++ [nb] })
      ∧ nb.id = "book2" ∧ nb.id ≠ ""
      ∧ nb.title = JSVal.jstr "I, Robot"
      ∧ nb.authorIds = JSVal.jarr [.jstr "auth1"]
      ∧ nb.genreIds = JSVal.jarr [.jstr "gen1"]
      ∧ nb.isbn = JSVal.jstr "2" ∧ nb.summary = JSVal.jstr "t"
      ∧ getBookById "book2"
          (createBook
            { title := .jstr "I, Robot", authorIds := .jarr [.jstr "auth1"]
              genreIds := .jarr [.jstr "gen1"], isbn := .jstr "2"
              summary := .jstr "t" } "book2" sampleStore).2
          = ApiResult.ok nb := by
  have hfresh : ∀ bk ∈ sampleStore.books, bk.id ≠ "book2" := by
    intro bk hbk
    rcases List.mem_singleton.mp hbk with rfl
    decide
  exact ⟨rfl, hfresh, by decide,
    createBook_then_getById_roundtrip _ sampleStore "book2" rfl hfresh (by decide)⟩

/-- One mutating Facade operation, as the transport layer can invoke it.
Read operations leave the store unchanged and are omitted: they do not
affect which states are reachable. The `String` of each create is the
value `generateId` drew for that call (the randomness of the generator is an
input of the model). -/
inductive Op where
  | opCreateAuthor : AuthorBody → String → Op
  | opUpdateAuthor : AuthorBody → String → Op
  | opDeleteAuthor : String → Op
  | opCreateGenre : GenreBody → String → Op
  | opUpdateGenre : GenreBody → String → Op
  | opDeleteGenre : String → Op
  | opCreateBook : BookBody → String → Op
  | opUpdateBook : BookBody → String → Op
  | opDeleteBook : String → Op
  | opCreateCopy : BookCopyBody → String → Op
  | opUpdateCopy : BookCopyBody → String → Op
  | opDeleteCopy : String → Op

/-- The store transition an operation performs (its response ignored). -/
def applyOp : Op → Store → Store
  | .opCreateAuthor b newId, s => (createAuthor b newId s).2
  | .opUpdateAuthor b pid, s => (updateAuthorById b pid s).2
  | .opDeleteAuthor pid, s => (deleteAuthorById pid s).2
  | .opCreateGenre b newId, s => (createGenre b newId s).2
  | .opUpdateGenre b pid, s => (updateGenreById b pid s).2
  | .opDeleteGenre pid, s => (deleteGenreById pid s).2
  | .opCreateBook b newId, s => (createBook b newId s).2
  | .opUpdateBook b pid, s => (updateBookById b pid s).2
  | .opDeleteBook pid, s => (deleteBookById pid s).2
  | .opCreateCopy b newId, s => (createBookCopy b newId s).2
  | .opUpdateCopy b pid, s => (updateBookCopyById b pid s).2
  | .opDeleteCopy pid, s => (deleteBookCopyById pid s).2

/-- Running a sequence of Facade operations. -/
def applyOps : List Op → Store → Store
  | [], s => s
  | op :: ops, s => applyOps ops (applyOp op s)

/-- Identifiers are duplicate-free within each entity kind. -/
def UniqueIds (s : Store) : Prop :=
  (s.authors.map Author.id).Nodup ∧ (s.genres.map Genre.id).Nodup
    ∧ (s.books.map Book.id).Nodup ∧ (s.bookCopies.map BookCopy.id).Nodup

/-- The generator contract of spec 4.1 for one call: the drawn id does
not collide with an id already stored in the table of the targeted kind.
Non-create operations draw no id. -/
def freshFor : Op → Store → Prop
  | .opCreateAuthor _ newId, s => newId ∉ s.authors.map Author.id
  | .opCreateGenre _ newId, s => newId ∉ s.genres.map Genre.id
  | .opCreateBook _ newId, s => newId ∉ s.books.map Book.id
  | .opCreateCopy _ newId, s => newId ∉ s.bookCopies.map BookCopy.id
  | _, _ => True

/-- Every create along the run draws a fresh id. -/
def FreshAlong : List Op → Store → Prop
  | [], _ => True
  | op :: ops, s => freshFor op s ∧ FreshAlong ops (applyOp op s)

theorem nodup_map_append_singleton {f : α → String} {xs : List α} {x : α}
    (h : (xs.map f).Nodup) (hx : f x ∉ xs.map f) :
    ((xs ++ [x]).map f).Nodup := by
  rw [List.map_append]
  rw [List.nodup_append]
  refine ⟨h, List.nodup_singleton _, ?_⟩
  intro a ha hmem
  rw [List.map_singleton, List.mem_singleton] at hmem
  exact hx (hmem ▸ ha)

theorem nodup_map_sublist {f : α → String} {xs ys : List α}
    (h : xs.Sublist ys) (hnd : (ys.map f).Nodup) : (xs.map f).Nodup :=
  List.Nodup.sublist (h.map f) hnd

/-- One Facade operation preserves per-kind id uniqueness, given the
generator contract for that operation. -/
theorem uniqueIds_applyOp (op : Op) (s : Store) (hu : UniqueIds s)
    (hf : freshFor op s) : UniqueIds (applyOp op s) := by
  obtain ⟨ha, hg, hb, hc⟩ := hu
  cases op with
  | opCreateAuthor b newId =>
    by_cases hv : (!truthy b.firstName || !truthy b.birthDate) = true
    · have hs : (createAuthor b newId s).2 = s := by simp [createAuthor, hv]
      simpa [applyOp, UniqueIds, hs] using ⟨ha, hg, hb, hc⟩
    · have hs : (createAuthor b newId s).2
          = { s with authors := s.authors
              ++ [{ id := newId, firstName := b.firstName, lastName := b.lastName
                    birthDate := b.birthDate, deathDate := b.deathDate }] } := by
        simp [createAuthor, hv, addAuthor]
      have hfr : newId ∉ s.authors.map Author.id := hf
      exact ⟨by rw [applyOp, hs]; exact nodup_map_append_singleton ha hfr,
        by rw [applyOp, hs]; exact hg, by rw [applyOp, hs]; exact hb,
        by rw [applyOp, hs]; exact hc⟩
  | opUpdateAuthor b pid =>
    by_cases hv : (!truthy b.firstName || !truthy b.birthDate) = true
    · have hs : (updateAuthorById b pid s).2 = s := by simp [updateAuthorById, hv]
      simpa [applyOp, UniqueIds, hs] using ⟨ha, hg, hb, hc⟩
    · have hs : (updateAuthorById b pid s).2
          = { s with authors := (updateAuthor pid
              { id := none, firstName := some b.firstName
                lastName := some b.lastName, birthDate := some b.birthDate
                deathDate := some b.deathDate } s.authors).2 } := by
        simp [updateAuthorById, hv]
      have hmap := updateFirst_map (f := Author.id)
        (q := fun a : Author => a.id == pid)
        (g := fun a => mergeAuthor a
          { id := none, firstName := some b.firstName
            lastName := some b.lastName, birthDate := some b.birthDate
            deathDate := some b.deathDate }) (fun x => rfl) s.authors
      exact ⟨by rw [applyOp, hs]; exact hmap ▸ ha, by rw [applyOp, hs]; exact hg,
        by rw [applyOp, hs]; exact hb, by rw [applyOp, hs]; exact hc⟩
  | opDeleteAuthor pid =>
    have hsub : (deleteAuthor pid s.authors).2.Sublist s.authors := by
      unfold deleteAuthor
      by_cases hany : (s.authors.any fun a => a.id == pid) = true
      · simp [hany, removeFirst_sublist]
      · simp [hany]
    have hs : (deleteAuthorById pid s).2
        = { s with authors := (deleteAuthor pid s.authors).2 } := by
      by_cases h1 : (deleteAuthor pid s.authors).1 = true <;>
        simp [deleteAuthorById, h1]
    exact ⟨by rw [applyOp, hs]; exact nodup_map_sublist hsub ha,
      by rw [applyOp, hs]; exact hg, by rw [applyOp, hs]; exact hb,
      by rw [applyOp, hs]; exact hc⟩
  | opCreateGenre b newId =>
    by_cases hv : (!truthy b.name) = true
    · have hs : (createGenre b newId s).2 = s := by simp [createGenre, hv]
      simpa [applyOp, UniqueIds, hs] using ⟨ha, hg, hb, hc⟩
    · have hs : (createGenre b newId s).2
          = { s with genres := s.genres ++ [{ id := newId, name := b.name }] } := by
        simp [createGenre, hv, addGenre]
      have hfr : newId ∉ s.genres.map Genre.id := hf
      exact ⟨by rw [applyOp, hs]; exact ha,
        by rw [applyOp, hs]; exact nodup_map_append_singleton hg hfr,
        by rw [applyOp, hs]; exact hb, by rw [applyOp, hs]; exact hc⟩
  | opUpdateGenre b pid =>
    by_cases hv : (!truthy b.name) = true
    · have hs : (updateGenreById b pid s).2 = s := by simp [updateGenreById, hv]
      simpa [applyOp, UniqueIds, hs] using ⟨ha, hg, hb, hc⟩
    · have hs : (updateGenreById b pid s).2
          = { s with genres :=
              (updateGenre pid { id := none, name := some b.name } s.genres).2 } := by
        simp [updateGenreById, hv]
      have hmap := updateFirst_map (f := Genre.id)
        (q := fun g : Genre => g.id == pid)
        (g := fun g => mergeGenre g { id := none, name := some b.name })
        (fun x => rfl) s.genres
      exact ⟨by rw [applyOp, hs]; exact ha,
        by rw [applyOp, hs]; exact hmap ▸ hg,
        by rw [applyOp, hs]; exact hb, by rw [applyOp, hs]; exact hc⟩
  | opDeleteGenre pid =>
    have hsub : (deleteGenre pid s.genres).2.Sublist s.genres := by
      unfold deleteGenre
      by_cases hany : (s.genres.any fun g => g.id == pid) = true
      · simp [hany, removeFirst_sublist]
      · simp [hany]
    have hs : (deleteGenreById pid s).2
        = { s with genres := (deleteGenre pid s.genres).2 } := by
      by_cases h1 : (deleteGenre pid s.genres).1 = true <;>
        simp [deleteGenreById, h1]
    exact ⟨by rw [applyOp, hs]; exact ha,
      by rw [applyOp, hs]; exact nodup_map_sublist hsub hg,
      by rw [applyOp, hs]; exact hb, by rw [applyOp, hs]; exact hc⟩
  | opCreateBook b newId =>
    rcases hback : bookBodyError b s with _ | msg
    · have hs : (createBook b newId s).2
          = { s with books := s.books
              ++ [{ id := newId, title := b.title, authorIds := b.authorIds
                    genreIds := b.genreIds, isbn := b.isbn
                    summary := b.summary }] } := by
        simp [createBook, hback, addBook]
      have hfr : newId ∉ s.books.map Book.id := hf
      exact ⟨by rw [applyOp, hs]; exact ha, by rw [applyOp, hs]; exact hg,
        by rw [applyOp, hs]; exact nodup_map_append_singleton hb hfr,
        by rw [applyOp, hs]; exact hc⟩
    · have hs : (createBook b newId s).2 = s := by simp [createBook, hback]
      simpa [applyOp, UniqueIds, hs] using ⟨ha, hg, hb, hc⟩
  | opUpdateBook b pid =>
    rcases hback : bookBodyError b s with _ | msg
    · have hs : (updateBookById b pid s).2
          = { s with books := (updateBook pid
              { id := none, title := some b.title, authorIds := some b.authorIds
                genreIds := some b.genreIds, isbn := some b.isbn
                summary := some b.summary } s.books).2 } := by
        simp [updateBookById, hback]
      have hmap := updateFirst_map (f := Book.id)
        (q := fun bk : Book => bk.id == pid)
        (g := fun bk => mergeBook bk
          { id := none, title := some b.title, authorIds := some b.authorIds
            genreIds := some b.genreIds, isbn := some b.isbn
            summary := some b.summary }) (fun x => rfl) s.books
      exact ⟨by rw [applyOp, hs]; exact ha, by rw [applyOp, hs]; exact hg,
        by rw [applyOp, hs]; exact hmap ▸ hb, by rw [applyOp, hs]; exact hc⟩
    · have hs : (updateBookById b pid s).2 = s := by simp [updateBookById, hback]
      simpa [applyOp, UniqueIds, hs] using ⟨ha, hg, hb, hc⟩
  | opDeleteBook pid =>
    have hsubB : (deleteBook pid s.books s.bookCopies).2.1.Sublist s.books := by
      unfold deleteBook
      by_cases hany : (s.books.any fun bk => bk.id == pid) = true
      · simp [hany, removeFirst_sublist]
      · simp [hany]
    have hsubC : (deleteBook pid s.books s.bookCopies).2.2.Sublist s.bookCopies := by
      unfold deleteBook
      by_cases hany : (s.books.any fun bk => bk.id == pid) = true
      · simp [hany, List.filter_sublist]
      · simp [hany]
    have hs : (deleteBookById pid s).2
        = { books := (deleteBook pid s.books s.bookCopies).2.1
            authors := s.authors
            genres := s.genres
            bookCopies := (deleteBook pid s.books s.bookCopies).2.2 } := by
      by_cases h1 : (deleteBook pid s.books s.bookCopies).1 = true <;>
        simp [deleteBookById, h1]
    exact ⟨by rw [applyOp, hs]; exact ha, by rw [applyOp, hs]; exact hg,
      by rw [applyOp, hs]; exact nodup_map_sublist hsubB hb,
      by rw [applyOp, hs]; exact nodup_map_sublist hsubC hc⟩
  | opCreateCopy b newId =>
    rcases hcerr : copyBodyError b s with _ | msg
    · have hs : (createBookCopy b newId s).2
          = { s with bookCopies := s.bookCopies
              ++ [{ id := newId, bookId := b.bookId, imprint := b.imprint
                    status := b.status, dueBackDate := b.dueBackDate }] } := by
        simp [createBookCopy, hcerr, addBookCopy]
      have hfr : newId ∉ s.bookCopies.map BookCopy.id := hf
      exact ⟨by rw [applyOp, hs]; exact ha, by rw [applyOp, hs]; exact hg,
        by rw [applyOp, hs]; exact hb,
        by rw [applyOp, hs]; exact nodup_map_append_singleton hc hfr⟩
    · have hs : (createBookCopy b newId s).2 = s := by simp [createBookCopy, hcerr]
      simpa [applyOp, UniqueIds, hs] using ⟨ha, hg, hb, hc⟩
  | opUpdateCopy b pid =>
    rcases hcerr : copyBodyError b s with _ | msg
    · have hs : (updateBookCopyById b pid s).2
          = { s with bookCopies := (updateBookCopy pid
              { id := none, bookId := some b.bookId, imprint := some b.imprint
                status := some b.status, dueBackDate := some b.dueBackDate }
              s.bookCopies).2 } := by
        simp [updateBookCopyById, hcerr]
      have hmap := updateFirst_map (f := BookCopy.id)
        (q := fun c : BookCopy => c.id == pid)
        (g := fun c => mergeBookCopy c
          { id := none, bookId := some b.bookId, imprint := some b.imprint
            status := some b.status, dueBackDate := some b.dueBackDate })
        (fun x => rfl) s.bookCopies
      exact ⟨by rw [applyOp, hs]; exact ha, by rw [applyOp, hs]; exact hg,
        by rw [applyOp, hs]; exact hb, by rw [applyOp, hs]; exact hmap ▸ hc⟩
    · have hs : (updateBookCopyById b pid s).2 = s := by
        simp [updateBookCopyById, hcerr]
      simpa [applyOp, UniqueIds, hs] using ⟨ha, hg, hb, hc⟩
  | opDeleteCopy pid =>
    have hsub : (deleteBookCopy pid s.bookCopies).2.Sublist s.bookCopies := by
      unfold deleteBookCopy
      by_cases hany : (s.bookCopies.any fun c => c.id == pid) = true
      · simp [hany, removeFirst_sublist]
      · simp [hany]
    have hs : (deleteBookCopyById pid s).2
        = { s with bookCopies := (deleteBookCopy pid s.bookCopies).2 } := by
      by_cases h1 : (deleteBookCopy pid s.bookCopies).1 = true <;>
        simp [deleteBookCopyById, h1]
    exact ⟨by rw [applyOp, hs]; exact ha, by rw [applyOp, hs]; exact hg,
      by rw [applyOp, hs]; exact hb,
      by rw [applyOp, hs]; exact nodup_map_sublist hsub hc⟩

/-- Counterexample for C8: `generateId` never checks the drawn id
against the stored rows (it is only high-probability unique, spec 4.1),
so the state reached from the empty store by two Genre creations whose
draws collide stores two Genres with the same id — per-kind id
uniqueness is not an unconditional invariant of the reachable states. -/
theorem colliding_draws_reach_duplicate_ids :
    (applyOps [Op.opCreateGenre { name := .jstr "A" } "dup",
               Op.opCreateGenre { name := .jstr "B" } "dup"]
        emptyStore).genres.map Genre.id = ["dup", "dup"]
    ∧ ¬ UniqueIds (applyOps [Op.opCreateGenre { name := .jstr "A" } "dup",
               Op.opCreateGenre { name := .jstr "B" } "dup"] emptyStore) := by
  refine ⟨rfl, fun h => ?_⟩
  have hg : List.Nodup (["dup", "dup"] : List String) := h.2.1
  simp at hg

/-- C8 (amended): provided every `generateId` draw is fresh for its
table — the high-probability contract of spec 4.1, which the store
itself never checks — every state reachable from the empty store through
the Facade operations has duplicate-free ids within each entity kind;
and unconditionally, an update (of any kind, any payload, any target)
leaves the id list of every table exactly as it was, so an id is never
rewritten after being assigned at creation. -/
theorem unique_ids_invariant_and_id_immutability :
    UniqueIds emptyStore
    ∧ (∀ (ops : List Op) (s : Store), UniqueIds s → FreshAlong ops s →
        UniqueIds (applyOps ops s))
    ∧ (∀ (b : AuthorBody) (pid : String) (s : Store),
        (updateAuthorById b pid s).2.authors.map Author.id
            = s.authors.map Author.id
        ∧ (updateAuthorById b pid s).2.genres.map Genre.id
            = s.genres.map Genre.id
        ∧ (updateAuthorById b pid s).2.books.map Book.id
            = s.books.map Book.id
        ∧ (updateAuthorById b pid s).2.bookCopies.map BookCopy.id
            = s.bookCopies.map BookCopy.id)
    ∧ (∀ (b : GenreBody) (pid : String) (s : Store),
        (updateGenreById b pid s).2.genres.map Genre.id = s.genres.map Genre.id
        ∧ (updateGenreById b pid s).2.authors.map Author.id
            = s.authors.map Author.id
        ∧ (updateGenreById b pid s).2.books.map Book.id = s.books.map Book.id
        ∧ (updateGenreById b pid s).2.bookCopies.map BookCopy.id
            = s.bookCopies.map BookCopy.id)
    ∧ (∀ (b : BookBody) (pid : String) (s : Store),
        (updateBookById b pid s).2.books.map Book.id = s.books.map Book.id
        ∧ (updateBookById b pid s).2.authors.map Author.id
            = s.authors.map Author.id
        ∧ (updateBookById b pid s).2.genres.map Genre.id
            = s.genres.map Genre.id
        ∧ (updateBookById b pid s).2.bookCopies.map BookCopy.id
            = s.bookCopies.map BookCopy.id)
    ∧ (∀ (b : BookCopyBody) (pid : String) (s : Store),
        (updateBookCopyById b pid s).2.bookCopies.map BookCopy.id
            = s.bookCopies.map BookCopy.id
        ∧ (updateBookCopyById b pid s).2.authors.map Author.id
            = s.authors.map Author.id
        ∧ (updateBookCopyById b pid s).2.genres.map Genre.id
            = s.genres.map Genre.id
        ∧ (updateBookCopyById b pid s).2.books.map Book.id
            = s.books.map Book.id) := by
  refine ⟨⟨by simp [emptyStore], by simp [emptyStore], by simp [emptyStore],
      by simp [emptyStore]⟩, ?_, ?_, ?_, ?_, ?_⟩
  · intro ops
    induction ops with
    | nil => intro s hu _; exact hu
    | cons op ops ih =>
      intro s hu hfr
      exact ih (applyOp op s) (uniqueIds_applyOp op s hu hfr.1) hfr.2
  · intro b pid s
    by_cases hv : (!truthy b.firstName || !truthy b.birthDate) = true
    · refine ⟨?_, ?_, ?_, ?_⟩ <;> simp [updateAuthorById, hv]
    · have hmap := updateFirst_map (f := Author.id)
        (q := fun a : Author => a.id == pid)
        (g := fun a => mergeAuthor a
          { id := none, firstName := some b.firstName
            lastName := some b.lastName, birthDate := some b.birthDate
            deathDate := some b.deathDate }) (fun x => rfl) s.authors
      refine ⟨?_, ?_, ?_, ?_⟩ <;> simp [updateAuthorById, hv, updateAuthor, hmap]
  · intro b pid s
    by_cases hv : (!truthy b.name) = true
    · refine ⟨?_, ?_, ?_, ?_⟩ <;> simp [updateGenreById, hv]
    · have hmap := updateFirst_map (f := Genre.id)
        (q := fun g : Genre => g.id == pid)
        (g := fun g => mergeGenre g { id := none, name := some b.name })
        (fun x => rfl) s.genres
      refine ⟨?_, ?_, ?_, ?_⟩ <;> simp [updateGenreById, hv, updateGenre, hmap]
  · intro b pid s
    rcases hback : bookBodyError b s with _ | msg
    · have hmap := updateFirst_map (f := Book.id)
        (q := fun bk : Book => bk.id == pid)
        (g := fun bk => mergeBook bk
          { id := none, title := some b.title, authorIds := some b.authorIds
            genreIds := some b.genreIds, isbn := some b.isbn
            summary := some b.summary }) (fun x => rfl) s.books
      refine ⟨?_, ?_, ?_, ?_⟩ <;> simp [updateBookById, hback, updateBook, hmap]
    · refine ⟨?_, ?_, ?_, ?_⟩ <;> simp [updateBookById, hback]
  · intro b pid s
    rcases hcerr : copyBodyError b s with _ | msg
    · have hmap := updateFirst_map (f := BookCopy.id)
        (q := fun c : BookCopy => c.id == pid)
        (g := fun c => mergeBookCopy c
          { id := none, bookId := some b.bookId, imprint := some b.imprint
            status := some b.status, dueBackDate := some b.dueBackDate })
        (fun x => rfl) s.bookCopies
      refine ⟨?_, ?_, ?_, ?_⟩ <;>
        simp [updateBookCopyById, hcerr, updateBookCopy, hmap]
    · refine ⟨?_, ?_, ?_, ?_⟩ <;> simp [updateBookCopyById, hcerr]

/-- Witness for the amended theorem of C8: a fresh-draw run of three creates
from the empty store keeps ids unique, and a concrete Genre update
preserves every id. -/
theorem unique_ids_invariant_and_id_immutability_w :
    UniqueIds (applyOps
      [Op.opCreateAuthor
          { firstName := .jstr "Jane", lastName := .undef
            birthDate := .jstr "1980-01-01", deathDate := .undef } "a1",
        Op.opCreateGenre { name := .jstr "Horror" } "g1",
        Op.opCreateGenre { name := .jstr "Drama" } "g2"] emptyStore)
    ∧ (updateGenreById { name := .jstr "Weird" } "gen1" sampleStore).2.genres.map
        Genre.id = sampleStore.genres.map Genre.id := by
  constructor
  · apply unique_ids_invariant_and_id_immutability.2.1
    · exact ⟨by simp [emptyStore], by simp [emptyStore], by simp [emptyStore],
        by simp [emptyStore]⟩
    · refine ⟨?_, ?_, ?_, trivial⟩ <;> (unfold freshFor; decide)
  · exact (unique_ids_invariant_and_id_immutability.2.2.2.1
      { name := .jstr "Weird" } "gen1" sampleStore).1

end Catalog
